import Mathlib

/-
Shallow embedding of the Plandomizer distribution engine (Plandomizer.py) of the
OoT-Randomizer repository, together with proofs about its behaviour.

Modelling conventions:
* Python lists become Lean `List`s; Python dicts (which preserve insertion
  order) become association lists `List (String × α)` with `dictSet` matching
  Python assignment semantics (update in place keeps the position, a new key is
  appended).
* Python exceptions become an explicit error type `PErr`; stateful procedures
  return their (possibly partially mutated) state together with
  `Except PErr α`, because Python exceptions leave earlier in-place mutations
  visible to handlers.
* The shared pseudorandom source becomes an explicit stream of naturals
  (`List Nat`); each primitive draw consumes one entry and selects an index
  modulo the number of candidates.  Theorems quantify over all streams.
* External collaborators (the item table, group tables, the junk-item
  selector, the search/reachability oracle, the entrance-graph primitives)
  are parameters collected in environment structures.
-/

/-- One draw from the random stream: current value and remaining stream. -/
def rngHead (rng : List Nat) : Nat := rng.headD 0

/-- Python `random.choices(population, k=n)`: `n` independent uniform draws
with replacement.  The population is passed as head plus tail so it is
provably non-empty (Python raises on an empty population). -/
def pyChoices (c : α) (cs : List α) : Nat → List Nat → List α × List Nat
  | 0, rng => ([], rng)
  | n+1, rng =>
    let x := (c :: cs).getD (rngHead rng % (c :: cs).length) c
    let (xs, rng') := pyChoices c cs n (rng.drop 1)
    (x :: xs, rng')

/-- Python `list.remove(x)`: removes the first occurrence of `x`, raising
`ValueError` (modelled as `none`) when `x` is absent. -/
def pyListRemove [DecidableEq α] (l : List α) (x : α) : Option (List α) :=
  if l.contains x then some (l.erase x) else none

/-- Python list indexing `l[i]` with negative-index wrap-around; `none` models
an `IndexError`. -/
def pyGetElem (l : List α) (i : Int) : Option α :=
  if 0 ≤ i then l.get? i.toNat
  else if 0 ≤ i + l.length then l.get? (i + l.length).toNat
  else none

/-- Membership lookup in an insertion-ordered dict. -/
def dictFind (d : List (String × α)) (k : String) : Option α :=
  (d.find? (fun p => p.1 == k)).map Prod.snd

/-- Python `k in d`. -/
def dictContains (d : List (String × α)) (k : String) : Bool :=
  d.any (fun p => p.1 == k)

/-- Python `d[k] = v`: an existing key keeps its position, a new key is
appended at the end. -/
def dictSet (d : List (String × α)) (k : String) (v : α) : List (String × α) :=
  if dictContains d k then d.map (fun p => if p.1 == k then (k, v) else p)
  else d ++ [(k, v)]

/-- Python `d.update(pairs)`. -/
def dictUpdate (d : List (String × α)) (ps : List (String × α)) : List (String × α) :=
  ps.foldl (fun acc p => dictSet acc p.1 p.2) d

/-- Python `del d[k]`. -/
def dictDel (d : List (String × α)) (k : String) : List (String × α) :=
  d.filter (fun p => p.1 != k)

/-- Python substring test `p in s` on the underlying character lists. -/
def listContainsSub (p s : List Char) : Bool :=
  s.tails.any (fun t => p.isPrefixOf t)

/-- is_pattern from Plandomizer.py: a reference beginning with `!`, `*`, `#`
or ending with `*` is interpreted as a pattern, never a literal name. -/
def is_pattern (pattern : String) : Bool :=
  pattern.data.head? == some '!' || pattern.data.head? == some '*' ||
  pattern.data.head? == some '#' || pattern.data.getLast? == some '*'

/-- is_output_only from Plandomizer.py. -/
def is_output_only (pattern : String) : Bool :=
  pattern.data.head? == some ':'

/-- WorldDistribution.pattern_matcher for a single string pattern.  `groups`
stands for `self.distribution.search_groups` with the `#MajorItem` group
already resolved (in the source the `#MajorItem` set is computed lazily and
memoized; the memoization is a performance detail that does not change the
predicate's value). -/
def pattern_matcher1 (groups : String → List String) (pat : String) (s : String) : Bool :=
  let p0 := pat.data
  let invert := p0.head? == some '!'
  let p1 := if invert then p0.tail else p0
  if p1.head? == some '#' then
    invert != (groups (String.mk p1.tail)).any (fun g => g == s)
  else
    let wb := p1.head? == some '*'
    let p2 := if wb then p1.tail else p1
    let we := p2.getLast? == some '*'
    let p3 := if we then p2.dropLast else p2
    if we then
      if wb then invert != listContainsSub p3 s.data
      else invert != List.isPrefixOf p3 s.data
    else
      if wb then invert != List.isSuffixOf p3 s.data
      else invert != (p3 == s.data)

/-- A pattern argument: a single string or an ordered list of strings
(`pattern_matcher` accepts both). -/
inductive PatternArg where
  | str (p : String)
  | strs (ps : List String)
  deriving DecidableEq

/-- WorldDistribution.pattern_matcher.  For a list the source builds
`reduce(lambda acc, sub: lambda item: sub(item) or acc(item), ...,
lambda _: False)` over the element matchers. -/
def pattern_matcher (groups : String → List String) : PatternArg → String → Bool
  | .str p, s => pattern_matcher1 groups p s
  | .strs ps, s =>
    ((ps.map (fun p => fun item => pattern_matcher1 groups p item)).foldl
      (fun acc m => fun item => m item || acc item) (fun _ => false)) s

/-- Candidate list of pull_random_element: every element of every pool that
satisfies the predicate, tagged with the index of its pool, in pool-major
order (the source keeps the pool object itself; the index plays that role). -/
def prCandidates (pred : α → Bool) : Nat → List (List α) → List (α × Nat)
  | _, [] => []
  | i, pool :: rest =>
    ((pool.filter pred).map (fun e => (e, i))) ++ prCandidates pred (i+1) rest

/-- pull_random_element from Plandomizer.py: choose uniformly among all
matches across all pools; optionally remove the chosen element from its
pool (`pool.remove(element)` removes the first equal occurrence). -/
def pull_random_element [DecidableEq α] (pools : List (List α)) (pred : α → Bool)
    (remove : Bool) (rng : List Nat) : Option α × List (List α) × List Nat :=
  match prCandidates pred 0 pools with
  | [] => (none, pools, rng)
  | c :: cs =>
    let p := (c :: cs).getD (rngHead rng % (c :: cs).length) c
    if remove then
      (some p.1, pools.set p.2 ((pools.getD p.2 []).erase p.1), rng.drop 1)
    else
      (some p.1, pools, rng.drop 1)

/-- pull_first_element from Plandomizer.py. -/
def pull_first_element [DecidableEq α] (pred : α → Bool) (remove : Bool) :
    List (List α) → Option α × List (List α)
  | [] => (none, [])
  | pool :: rest =>
    match pool.find? pred with
    | some e => (some e, (if remove then pool.erase e else pool) :: rest)
    | none =>
      let r := pull_first_element pred remove rest
      (r.1, pool :: r.2)

/-- Error values.  Each constructor stands for one distinct exception message
raised somewhere in Plandomizer.py; the fields are the values interpolated
into the message.  Constructors whose Python counterpart is a `KeyError`
are classified by `PErr.isKeyError` below, because several call sites catch
exactly that exception class. -/
inductive PErr where
  | noRemainingItems (pattern : String)
  | noItemsMatching (pattern : String)
  | dictKeyError (key : String)
  | valueErrorRemove (item : String)
  | unknownItemAdd (pattern : String)
  | unknownItemAddPattern (pattern : String)
  | junkSetCount
  | iceArrows
  | blueFireArrows
  | eggCuccoRemove
  | weirdEggChickenRemove
  | unshuffledTradeStart (item : String)
  | negativeCount
  | badPoolType
  | illTypedDoc
  | unknownLocation (name : String)
  | locationAlreadyFilled (world : Int) (name : String)
  | dungeonReward (item : String) (world : Int) (loc : String)
  | tooManyShopBuy (world : Int)
  | tooManyBottles (world : Int)
  | tooManyAdultTrade (world : Int)
  | tooManyChildTrade (world : Int)
  | tooManyItems (world : Int)
  | unknownItemPlace (item : String) (loc : String) (world : Int)
  | fillError (loc : String) (world : Int) (item : String) (player : Int)
  | unknownEntrance (world : Int) (name : String)
  | entranceAlreadyShuffled (world : Int) (name : String)
  | noTargetToRegion (ent : String) (region : String) (world : Int)
  | noTargetFromOrigin (ent : String) (region : String) (origin : String) (world : Int)
  | targetAlreadyShuffled (region : String) (origin : String) (world : Int)
  | cannotConnect (ent : String) (world : Int) (reason : String)
  | notShuffledPool (world : Int) (name : String)
  | indexErr
  deriving DecidableEq

/-- Which errors correspond to a Python `KeyError` (the class several
call sites catch). -/
def PErr.isKeyError : PErr → Bool
  | .noRemainingItems _ => true
  | .noItemsMatching _ => true
  | .dictKeyError _ => true
  | .eggCuccoRemove => true
  | .weirdEggChickenRemove => true
  | _ => false

/-- JSON-like document values exchanged with Record constructors and
`to_json`.  String lists are the only list shape the embedded records use. -/
inductive JVal where
  | null
  | b (v : Bool)
  | n (v : Int)
  | s (v : String)
  | arr (vs : List String)
  | dict (kvs : List (String × JVal))

/-- DungeonRecord.mapping as a function (`dict.get(key, None)`). -/
def dungeonMapping (s : String) : Option Bool :=
  if s == "random" then none
  else if s == "mq" then some true
  else if s == "vanilla" then some false
  else none

/-- DungeonRecord: `mq ∈ {None, True, False}`. -/
structure DungeonRecord where
  mq : Option Bool
  deriving DecidableEq

/-- DungeonRecord.to_json: 'random' / 'mq' / 'vanilla'. -/
def DungeonRecord.to_json (r : DungeonRecord) : JVal :=
  match r.mq with
  | none => .s "random"
  | some true => .s "mq"
  | some false => .s "vanilla"

/-- DungeonRecord constructor from a document value (`none` models the shapes
on which the Python constructor would raise). -/
def DungeonRecord.ofDoc : JVal → Option DungeonRecord
  | .s str => some ⟨dungeonMapping str⟩
  | .dict kvs =>
    match dictFind kvs "mq" with
    | some (.b v) => some ⟨some v⟩
    | some .null => some ⟨none⟩
    | none => some ⟨none⟩
    | some _ => none
  | _ => none

/-- EmptyDungeonRecord. -/
structure EmptyDungeonRecord where
  empty : Option Bool
  deriving DecidableEq

/-- EmptyDungeonRecord.to_json returns the raw `empty` value. -/
def EmptyDungeonRecord.to_json (r : EmptyDungeonRecord) : JVal :=
  match r.empty with
  | none => .null
  | some v => .b v

/-- EmptyDungeonRecord constructor from a document value. -/
def EmptyDungeonRecord.ofDoc : JVal → Option EmptyDungeonRecord
  | .null => some ⟨none⟩
  | .b v => some ⟨some v⟩
  | .s str => if str == "random" then some ⟨none⟩ else none
  | .dict kvs =>
    match dictFind kvs "empty" with
    | some (.b v) => some ⟨some v⟩
    | some .null => some ⟨none⟩
    | none => some ⟨none⟩
    | some _ => none
  | _ => none

/-- TrialRecord.mapping as a function. -/
def trialMapping (s : String) : Option Bool :=
  if s == "random" then none
  else if s == "active" then some true
  else if s == "inactive" then some false
  else none

/-- TrialRecord. -/
structure TrialRecord where
  active : Option Bool
  deriving DecidableEq

/-- TrialRecord.to_json: 'random' / 'active' / 'inactive'. -/
def TrialRecord.to_json (r : TrialRecord) : JVal :=
  match r.active with
  | none => .s "random"
  | some true => .s "active"
  | some false => .s "inactive"

/-- TrialRecord constructor from a document value. -/
def TrialRecord.ofDoc : JVal → Option TrialRecord
  | .s str => some ⟨trialMapping str⟩
  | .dict kvs =>
    match dictFind kvs "active" with
    | some (.b v) => some ⟨some v⟩
    | some .null => some ⟨none⟩
    | none => some ⟨none⟩
    | some _ => none
  | _ => none

/-- SongRecord. -/
structure SongRecord where
  notes : Option String
  deriving DecidableEq

/-- SongRecord.to_json returns the raw notes. -/
def SongRecord.to_json (r : SongRecord) : JVal :=
  match r.notes with
  | none => .null
  | some v => .s v

/-- SongRecord constructor from a document value. -/
def SongRecord.ofDoc : JVal → Option SongRecord
  | .null => some ⟨none⟩
  | .s v => some ⟨some v⟩
  | .dict kvs =>
    match dictFind kvs "notes" with
    | some (.s v) => some ⟨some v⟩
    | some .null => some ⟨none⟩
    | none => some ⟨none⟩
    | some _ => none
  | _ => none

/-- StarterRecord: a bare count. -/
structure StarterRecord where
  count : Int
  deriving DecidableEq

/-- StarterRecord.to_json returns the count. -/
def StarterRecord.to_json (r : StarterRecord) : JVal := .n r.count

/-- StarterRecord constructor from a document value. -/
def StarterRecord.ofDoc : JVal → Option StarterRecord
  | .n v => some ⟨v⟩
  | .dict kvs =>
    match dictFind kvs "count" with
    | some (.n v) => some ⟨v⟩
    | none => some ⟨1⟩
    | some _ => none
  | _ => none

/-- ItemPoolRecord: an adjustment `type ∈ {add, remove, set}` and a count. -/
structure ItemPoolRecord where
  type : String
  count : Int
  deriving DecidableEq

/-- The default ItemPoolRecord (`ItemPoolRecord()`): type 'set', count 1. -/
def ItemPoolRecord.default : ItemPoolRecord := ⟨"set", 1⟩

/-- ItemPoolRecord.update: the generic Record.update resolves each field from
the partial document (an absent field falls back to the declared default when
`update_all` is set, and to the current value otherwise), then the count and
type constraints are checked, count first. -/
def ItemPoolRecord.update (r : ItemPoolRecord) (typ : Option String) (cnt : Option Int)
    (update_all : Bool) : Except PErr ItemPoolRecord :=
  let t := match typ with
    | some t => t
    | none => if update_all then "set" else r.type
  let c := match cnt with
    | some c => c
    | none => if update_all then 1 else r.count
  if c < 0 then .error .negativeCount
  else if !(["add", "remove", "set"].contains t) then .error .badPoolType
  else .ok ⟨t, c⟩

/-- ItemPoolRecord.to_json: a bare count when the type is 'set', otherwise the
sparse dict. -/
def ItemPoolRecord.to_json (r : ItemPoolRecord) : JVal :=
  if r.type == "set" then .n r.count
  else .dict ((if r.type != "set" then [("type", JVal.s r.type)] else []) ++
              (if r.count != 1 then [("count", JVal.n r.count)] else []))

/-- ItemPoolRecord constructor from a document value: an int is shorthand for
`{'count': n}`; construction runs `update` with `update_all` set. -/
def ItemPoolRecord.ofDoc : JVal → Except PErr ItemPoolRecord
  | .n v => ItemPoolRecord.default.update none (some v) true
  | .dict kvs =>
    let t := match dictFind kvs "type" with
      | some (.s t) => some (some t)
      | none => some none
      | some _ => none
    let c := match dictFind kvs "count" with
      | some (.n v) => some (some v)
      | none => some none
      | some _ => none
    match t, c with
    | some t, some c => ItemPoolRecord.default.update t c true
    | _, _ => .error .illTypedDoc
  | _ => .error .illTypedDoc

/-- An ASCII apostrophe (used by Python `str` on a list of strings). -/
def pySquote : String := String.singleton (Char.ofNat 39)

/-- Python `str` applied to a LocationRecord's item field, which is either a
string (returned as is) or a list of strings (rendered like
`str(['a', 'b'])`). -/
def pyStrOfItem : String ⊕ List String → String
  | .inl s => s
  | .inr l => "[" ++ String.intercalate ", " (l.map (fun x => pySquote ++ x ++ pySquote)) ++ "]"

/-- LocationRecord: item (name, pattern, or candidate list), owning player,
price and cosmetic model overrides. -/
structure LocationRecord where
  item : Option (String ⊕ List String)
  player : Option Int
  price : Option Int
  model : Option String
  deriving DecidableEq

/-- The JSON encoding of a LocationRecord item field. -/
def jOfItem : String ⊕ List String → JVal
  | .inl s => .s s
  | .inr l => .arr l

/-- LocationRecord.to_json: the sparse dict of non-default fields; when `item`
is the only such field the record collapses to `str(self.item)`. -/
def LocationRecord.to_json (r : LocationRecord) : JVal :=
  match r.item, r.player, r.price, r.model with
  | some it, none, none, none => .s (pyStrOfItem it)
  | it, pl, pr, md =>
    .dict ((match it with | some v => [("item", jOfItem v)] | none => []) ++
           (match pl with | some v => [("player", JVal.n v)] | none => []) ++
           (match pr with | some v => [("price", JVal.n v)] | none => []) ++
           (match md with | some v => [("model", JVal.s v)] | none => []))

/-- Field-wise decoding of a LocationRecord document dict. -/
def LocationRecord.ofDict (kvs : List (String × JVal)) : Option LocationRecord :=
  let it := match dictFind kvs "item" with
    | some (.s v) => some (some (Sum.inl v))
    | some (.arr l) => some (some (Sum.inr l))
    | some .null => some none
    | none => some none
    | some _ => none
  let pl := match dictFind kvs "player" with
    | some (.n v) => some (some v)
    | some .null => some none
    | none => some none
    | some _ => none
  let pr := match dictFind kvs "price" with
    | some (.n v) => some (some v)
    | some .null => some none
    | none => some none
    | some _ => none
  let md := match dictFind kvs "model" with
    | some (.s v) => some (some v)
    | some .null => some none
    | none => some none
    | some _ => none
  match it, pl, pr, md with
  | some it, some pl, some pr, some md => some ⟨it, pl, pr, md⟩
  | _, _, _, _ => none

/-- LocationRecord constructor from a document value: a bare string is
shorthand for `{'item': s}`, a bare list for `{'item': l}` (Record.update
wraps lists that way). -/
def LocationRecord.ofDoc : JVal → Option LocationRecord
  | .s v => some ⟨some (.inl v), none, none, none⟩
  | .arr l => some ⟨some (.inr l), none, none, none⟩
  | .dict kvs => LocationRecord.ofDict kvs
  | _ => none

/-- EntranceRecord: target region plus optional origin constraint. -/
structure EntranceRecord where
  region : Option String
  origin : Option String
  deriving DecidableEq

/-- EntranceRecord.to_json: collapses to the bare region string when `region`
is the only non-default field; otherwise it runs
`self_dict['from'] = self_dict['origin']` on the sparse dict, which renames
`origin` to `from` at the end of the dict when origin is present — and raises
`KeyError('origin')` when it is not, i.e. on the all-default record. -/
def EntranceRecord.to_json (r : EntranceRecord) : Except PErr JVal :=
  match r.region, r.origin with
  | some v, none => .ok (.s v)
  | none, none => .error (.dictKeyError "origin")
  | rg, some og =>
    .ok (.dict ((match rg with | some v => [("region", JVal.s v)] | none => []) ++
                [("from", JVal.s og)]))

/-- EntranceRecord constructor from a document value: a bare string is
shorthand for `{'region': s}`; a `from` key is renamed to `origin`. -/
def EntranceRecord.ofDoc : JVal → Option EntranceRecord
  | .s v => some ⟨some v, none⟩
  | .dict kvs =>
    let rg := match dictFind kvs "region" with
      | some (.s v) => some (some v)
      | some .null => some none
      | none => some none
      | some _ => none
    let og := match dictFind kvs "from" with
      | some (.s v) => some (some v)
      | some .null => some none
      | none => some none
      | some _ => none
    match rg, og with
    | some rg, some og => some ⟨rg, og⟩
    | _, _ => none
  | _ => none

/-- GossipRecord: hint text with color and hinted-entity lists.
`CollapseList`/`CollapseDict` of the source only affect pretty-printing and
are modelled as the identity. -/
structure GossipRecord where
  text : Option String
  colors : Option (List String)
  hinted_locations : Option (List String)
  hinted_items : Option (List String)
  deriving DecidableEq

/-- GossipRecord.to_json: the sparse dict of non-default fields. -/
def GossipRecord.to_json (r : GossipRecord) : JVal :=
  .dict ((match r.text with | some v => [("text", JVal.s v)] | none => []) ++
         (match r.colors with | some v => [("colors", JVal.arr v)] | none => []) ++
         (match r.hinted_locations with | some v => [("hinted_locations", JVal.arr v)] | none => []) ++
         (match r.hinted_items with | some v => [("hinted_items", JVal.arr v)] | none => []))

/-- GossipRecord constructor from a document dict. -/
def GossipRecord.ofDoc : JVal → Option GossipRecord
  | .dict kvs =>
    let tx := match dictFind kvs "text" with
      | some (.s v) => some (some v)
      | some .null => some none
      | none => some none
      | some _ => none
    let co := match dictFind kvs "colors" with
      | some (.arr v) => some (some v)
      | some .null => some none
      | none => some none
      | some _ => none
    let hl := match dictFind kvs "hinted_locations" with
      | some (.arr v) => some (some v)
      | some .null => some none
      | none => some none
      | some _ => none
    let hi := match dictFind kvs "hinted_items" with
      | some (.arr v) => some (some v)
      | some .null => some none
      | none => some none
      | some _ => none
    match tx, co, hl, hi with
    | some tx, some co, some hl, some hi => some ⟨tx, co, hl, hi⟩
    | _, _, _, _ => none
  | _ => none

/-- A value of the normalized `settings.starting_items` dict: either a plain
StarterRecord count or, under a reserved 'World N' key, a per-world sub-dict
of counts. -/
inductive SIVal where
  | cnt (c : Int)
  | world (d : List (String × Int))
  deriving DecidableEq

/-- The reserved per-world key `'World %d' % (i)`. -/
def worldName (i : Nat) : String := "World " ++ toString i

/-- `['World %d' % (i + 1) for i in range(n)]`. -/
def world_names (n : Nat) : List String := (List.range n).map (fun i => worldName (i + 1))

/-- WorldDistribution.starting_items (the property): start from the
per-player sub-dict stored under this world's reserved key (if any), then
`data.update(...)` with every entry whose key is not a reserved world name.
`data` is a `defaultdict(lambda: StarterRecord(0))`, so absent keys read as
count 0. -/
def starting_items (worldCount : Nat) (id : Nat) (si : List (String × SIVal)) :
    List (String × SIVal) :=
  let wnames := world_names worldCount
  let data : List (String × SIVal) :=
    match dictFind si (wnames.getD id "") with
    | some (.world d) => dictUpdate [] (d.map (fun p => (p.1, SIVal.cnt p.2)))
    | _ => []
  dictUpdate data (si.filter (fun p => !(wnames.contains p.1)))

/-- An entry of the external `StartingItems.inventory` table: an item name and
its ammo dict mapping each ammo item to a count curve indexed by equipment
level (an empty dict models a falsy `item.ammo`). -/
structure InvEntry where
  item_name : String
  ammo : List (String × List Int)
  deriving DecidableEq

/-- The ammo-writing loop shared by add_starting_item_with_ammo: for each
`(ammo, qty)` pair, insert the ammo key with count 0 when absent, then set its
count to `qty[starting_items[item_name].count - 1]` (Python indexing; `none`
models the `IndexError` raised when the equipment count exceeds the curve
length). -/
def ammoLoop (item_name : String) : List (String × List Int) → List (String × Int) →
    Option (List (String × Int))
  | [], si => some si
  | (ammo, qty) :: rest, si =>
    let si1 := if dictContains si ammo then si else dictSet si ammo 0
    match pyGetElem qty ((dictFind si1 item_name).getD 0 - 1) with
    | none => none
    | some v => ammoLoop item_name rest (dictSet si1 ammo v)

/-- add_starting_item_with_ammo from Plandomizer.py: bump the equipment
count, then write the ammo counts of the first inventory entry for that item
that has a (non-empty) ammo dict. -/
def add_starting_item_with_ammo (inventory : List InvEntry) (si : List (String × Int))
    (item_name : String) (count : Int := 1) : Option (List (String × Int)) :=
  let si1 := if dictContains si item_name then si else dictSet si item_name 0
  let cnt := (dictFind si1 item_name).getD 0 + count
  let si2 := dictSet si1 item_name cnt
  match inventory.find? (fun it => it.item_name == item_name && !it.ammo.isEmpty) with
  | none => some si2
  | some it => ammoLoop item_name it.ammo si2

/-- The inner loop of add_starting_ammo: an ammo count is written only when
the ammo key is not already present. -/
def addAmmoLoop (item_name : String) : List (String × List Int) → List (String × Int) →
    Option (List (String × Int))
  | [], si => some si
  | (ammo, qty) :: rest, si =>
    if dictContains si ammo then addAmmoLoop item_name rest si
    else
      match pyGetElem qty ((dictFind si item_name).getD 0 - 1) with
      | none => none
      | some v => addAmmoLoop item_name rest (dictSet (dictSet si ammo 0) ammo v)

/-- add_starting_ammo from Plandomizer.py: for every inventory item already
present in the starting dict, write its ammo counts without overriding
existing entries. -/
def add_starting_ammo (inventory : List InvEntry) (si : List (String × Int)) :
    Option (List (String × Int)) :=
  match inventory with
  | [] => some si
  | it :: rest =>
    if dictContains si it.item_name && !it.ammo.isEmpty then
      match addAmmoLoop it.item_name it.ammo si with
      | none => none
      | some si' => add_starting_ammo rest si'
    else add_starting_ammo rest si

/-- The removal predicate of pool_remove_item.  Without a world id the pool
elements are names themselves (`toName` is the identity there); with one, the
element's world is compared first and the matcher applied to its name.  The
xor with `not use_base_pool` restricts the first tier to elements of the base
pool and the fallback tier to elements outside it. -/
def removePred (toName : α → String) (worldOf : α → Int) (matcher : String → Bool)
    (world_id : Option Int) (use_base : Bool) (base_pool : List String) : α → Bool :=
  fun x =>
    match world_id with
    | none => matcher (toName x) && ((base_pool.contains (toName x)) != !use_base)
    | some w => (worldOf x == w) && (matcher (toName x) && ((base_pool.contains (toName x)) != !use_base))

/-- State threaded through pool_remove_item: the pools, the player's base
pool, and the random stream. -/
structure RemovalSt (α : Type) where
  pools : List (List α)
  base_pool : List String
  rng : List Nat
  deriving DecidableEq

/-- The body of one fallback-tier step of pool_remove_item, split on the
pull result (`cont` is the recursive continuation for the remaining count). -/
def poolRemoveFullStep (toName : α → String) (is_item : String → Bool) (item_name : String)
    (base_pool : List String) (res : Option α × List (List α) × List Nat)
    (cont : RemovalSt α → RemovalSt α × Except PErr (List α)) :
    RemovalSt α × Except PErr (List α) :=
  match res with
  | (none, pools2, rng2) =>
    (⟨pools2, base_pool, rng2⟩,
     .error (if is_item item_name then .noRemainingItems item_name else .noItemsMatching item_name))
  | (some e, pools2, rng2) =>
    let r := cont ⟨pools2, base_pool, rng2⟩
    (r.1, r.2.map (fun l => e :: l))

/-- pool_remove_item with `use_base_pool=False` (the fallback tier): each step
pulls one random match; when none remains a `KeyError` is raised whose message
is chosen by `is_item(item_name)`. -/
def pool_remove_full [DecidableEq α] (toName : α → String) (worldOf : α → Int)
    (is_item : String → Bool) (matcher : String → Bool) (item_name : String)
    (world_id : Option Int) : Nat → RemovalSt α → RemovalSt α × Except PErr (List α)
  | 0, st => (st, .ok [])
  | n+1, st =>
    poolRemoveFullStep toName is_item item_name st.base_pool
      (pull_random_element st.pools
        (removePred toName worldOf matcher world_id false st.base_pool) true st.rng)
      (pool_remove_full toName worldOf is_item matcher item_name world_id n)

/-- The body of one base-tier step of pool_remove_item, split on the pull
result: exhaustion falls through to the fallback tier for the whole remaining
count, a pulled element is also struck from the base pool. -/
def poolRemoveBaseStep [DecidableEq α] (toName : α → String) (base_pool : List String)
    (res : Option α × List (List α) × List Nat)
    (fallback : RemovalSt α → RemovalSt α × Except PErr (List α))
    (cont : List String → RemovalSt α → RemovalSt α × Except PErr (List α)) :
    RemovalSt α × Except PErr (List α) :=
  match res with
  | (none, pools2, rng2) => fallback ⟨pools2, base_pool, rng2⟩
  | (some e, pools2, rng2) =>
    match pyListRemove base_pool (toName e) with
    | none => (⟨pools2, base_pool, rng2⟩, .error (.valueErrorRemove (toName e)))
    | some bp2 =>
      let r := cont bp2 ⟨pools2, bp2, rng2⟩
      (r.1, r.2.map (fun l => e :: l))

/-- pool_remove_item with `use_base_pool=True` (the first tier): pulls matches
that are in the base pool, removing each from the base pool as well; when the
tier is exhausted it falls through to the fallback tier for the remaining
count. -/
def pool_remove_base [DecidableEq α] (toName : α → String) (worldOf : α → Int)
    (is_item : String → Bool) (matcher : String → Bool) (item_name : String)
    (world_id : Option Int) : Nat → RemovalSt α → RemovalSt α × Except PErr (List α)
  | 0, st => (st, .ok [])
  | n+1, st =>
    poolRemoveBaseStep toName st.base_pool
      (pull_random_element st.pools
        (removePred toName worldOf matcher world_id true st.base_pool) true st.rng)
      (pool_remove_full toName worldOf is_item matcher item_name world_id (n+1))
      (fun _ => pool_remove_base toName worldOf is_item matcher item_name world_id n)

/-- WorldDistribution.pool_remove_item.  The pattern matcher is compiled once
from the item name; `use_base_pool` selects the starting tier. -/
def pool_remove_item [DecidableEq α] (toName : α → String) (worldOf : α → Int)
    (is_item : String → Bool) (groups : String → List String) (item_name : String)
    (world_id : Option Int) (use_base_pool : Bool) (count : Nat) (st : RemovalSt α) :
    RemovalSt α × Except PErr (List α) :=
  let matcher := pattern_matcher1 groups item_name
  if use_base_pool then
    pool_remove_base toName worldOf is_item matcher item_name world_id count st
  else
    pool_remove_full toName worldOf is_item matcher item_name world_id count st

/-- External collaborators used by the pool operations on name pools. -/
structure PoolEnv where
  groups : String → List String
  is_item : String → Bool
  all_item_names : List String
  get_junk_item : Nat → Option (List String) → Option (List (String × ItemPoolRecord)) → List String
  song_items : List String

/-- WorldDistribution.pool_add_item: `#Junk` defers to the external junk
selector; a pattern samples `count` names with replacement among all known
items matching it that are not zeroed out in the plando item_pool; a literal
name must be a known item and is appended `count` times. -/
def pool_add_item (env : PoolEnv) (item_pool : List (String × ItemPoolRecord))
    (pool : List String) (item_name : String) (count : Nat) (rng : List Nat) :
    Except PErr (List String × List String × List Nat) :=
  if item_name == "#Junk" then
    let added := env.get_junk_item count (some pool) (some item_pool)
    .ok (added, pool ++ added, rng)
  else if is_pattern item_name then
    let matcher := pattern_matcher1 env.groups item_name
    let candidates := env.all_item_names.filter
      (fun nm => matcher nm &&
        (match dictFind item_pool nm with
         | none => true
         | some r => r.count != 0))
    match candidates with
    | [] => .error (.unknownItemAddPattern item_name)
    | c :: cs =>
      let r := pyChoices c cs count rng
      .ok (r.1, pool ++ r.1, r.2)
  else
    if env.is_item item_name then
      let added := List.replicate count item_name
      .ok (added, pool ++ added, rng)
    else .error (.unknownItemAdd item_name)

/-- State threaded through alter_pool: the working pool, the base pool, the
plando item_pool dict, the `song_as_items` flag, the running bottle counter,
the deferred trade-record deletions and the random stream. -/
structure AlterSt where
  pool : List String
  base_pool : List String
  item_pool : List (String × ItemPoolRecord)
  song_as_items : Bool
  bottles : Int
  remove_trade : List String
  rng : List Nat
  deriving DecidableEq

/-- `self.pool_remove_item([pool], name, count)` inside alter_pool: name
pools, no world id, starting from the base tier. -/
def alterRemove (env : PoolEnv) (item_name : String) (count : Nat) (st : AlterSt) :
    AlterSt × Except PErr (List String) :=
  let r := pool_remove_item (fun s => s) (fun _ => 0) env.is_item env.groups item_name
    none true count ⟨[st.pool], st.base_pool, st.rng⟩
  (⟨r.1.pools.headD [], r.1.base_pool, st.item_pool, st.song_as_items, st.bottles,
    st.remove_trade, r.1.rng⟩, r.2)

/-- `self.pool_add_item(pool, name, count)` inside alter_pool. -/
def alterAdd (env : PoolEnv) (item_name : String) (count : Nat) (st : AlterSt) :
    AlterSt × Except PErr (List String) :=
  match pool_add_item env st.item_pool st.pool item_name count st.rng with
  | .error e => (st, .error e)
  | .ok (added, pool', rng') => ({st with pool := pool', rng := rng'}, .ok added)

/-- Step 1 of alter_pool: apply every `add` and then-every `remove` record in
record-iteration order (the two `if`s are not exclusive in the source, but a
record's type is a single value). -/
def alterPhase1 (env : PoolEnv) : List (String × ItemPoolRecord) → AlterSt → AlterSt × Option PErr
  | [], st => (st, none)
  | (name, rec) :: rest, st =>
    let s1 := if rec.type == "add" then alterAdd env name rec.count.toNat st else (st, .ok [])
    match s1.2 with
    | .error e => (s1.1, some e)
    | .ok _ =>
      let s2 := if rec.type == "remove" then alterRemove env name rec.count.toNat s1.1 else (s1.1, .ok [])
      match s2.2 with
      | .error e => (s2.1, some e)
      | .ok _ => alterPhase1 env rest s2.1

/-- Per-added-item bookkeeping of a `set` record: count bottles, compensate
adult-trade items by removing one `#AdultTrade` when trade items are capped. -/
def alterSetAddedLoop (env : PoolEnv) (settings_item_pool_value : String)
    (settings_adult_trade_shuffle : Bool) (bottle_matcher adult_trade_matcher : String → Bool) :
    List String → AlterSt → AlterSt × Option PErr
  | [], st => (st, none)
  | item :: rest, st =>
    if bottle_matcher item then
      alterSetAddedLoop env settings_item_pool_value settings_adult_trade_shuffle
        bottle_matcher adult_trade_matcher rest {st with bottles := st.bottles + 1}
    else if adult_trade_matcher item &&
        !(settings_item_pool_value == "plentiful" || settings_item_pool_value == "ludicrous" ||
          settings_adult_trade_shuffle) then
      let r := alterRemove env "#AdultTrade" 1 st
      match r.2 with
      | .error e => (r.1, some e)
      | .ok _ =>
        alterSetAddedLoop env settings_item_pool_value settings_adult_trade_shuffle
          bottle_matcher adult_trade_matcher rest r.1
    else
      alterSetAddedLoop env settings_item_pool_value settings_adult_trade_shuffle
        bottle_matcher adult_trade_matcher rest st

/-- Per-removed-item bookkeeping of a `set` record: the mirror image of
`alterSetAddedLoop`. -/
def alterSetRemovedLoop (env : PoolEnv) (settings_item_pool_value : String)
    (settings_adult_trade_shuffle : Bool) (bottle_matcher adult_trade_matcher : String → Bool) :
    List String → AlterSt → AlterSt × Option PErr
  | [], st => (st, none)
  | item :: rest, st =>
    if bottle_matcher item then
      alterSetRemovedLoop env settings_item_pool_value settings_adult_trade_shuffle
        bottle_matcher adult_trade_matcher rest {st with bottles := st.bottles - 1}
    else if adult_trade_matcher item &&
        !(settings_item_pool_value == "plentiful" || settings_item_pool_value == "ludicrous" ||
          settings_adult_trade_shuffle) then
      let r := alterAdd env "#AdultTrade" 1 st
      match r.2 with
      | .error e => (r.1, some e)
      | .ok _ =>
        alterSetRemovedLoop env settings_item_pool_value settings_adult_trade_shuffle
          bottle_matcher adult_trade_matcher rest r.1
    else
      alterSetRemovedLoop env settings_item_pool_value settings_adult_trade_shuffle
        bottle_matcher adult_trade_matcher rest st

/-- `for item in pool_match: self.base_pool.remove(item)`: remove every match
from the base pool, keeping the partially mutated list when a `ValueError`
occurs. -/
def baseRemoveAll : List String → List String → List String × Option String
  | [], bp => (bp, none)
  | x :: xs, bp =>
    match pyListRemove bp x with
    | none => (bp, some x)
    | some bp' => baseRemoveAll xs bp'

/-- Step 2 of alter_pool: the `set` records.  For each, the current matches
are counted (and struck from the base pool), the delta to the target count is
added or removed, and bottle/adult-trade side effects are tracked. -/
def alterPhase2 (env : PoolEnv) (ipv : String) (ats : Bool) (blue_fire_arrows : Bool)
    (shuffle_child_trade : List String)
    (bottle_matcher child_trade_matcher adult_trade_matcher : String → Bool) :
    List (String × ItemPoolRecord) → AlterSt → AlterSt × Option PErr
  | [], st => (st, none)
  | (name, rec) :: rest, st =>
    if rec.type == "set" then
      if name == "#Junk" then (st, some .junkSetCount)
      else if name == "Ice Arrows" && blue_fire_arrows then (st, some .iceArrows)
      else if name == "Blue Fire Arrows" && !blue_fire_arrows then (st, some .blueFireArrows)
      else if child_trade_matcher name && !(shuffle_child_trade.contains name) then
        alterPhase2 env ipv ats blue_fire_arrows shuffle_child_trade bottle_matcher
          child_trade_matcher adult_trade_matcher rest
          {st with remove_trade := st.remove_trade ++ [name]}
      else if child_trade_matcher name && !(ipv == "plentiful" || ipv == "ludicrous") then
        alterPhase2 env ipv ats blue_fire_arrows shuffle_child_trade bottle_matcher
          child_trade_matcher adult_trade_matcher rest
          {st with item_pool := dictSet st.item_pool name ⟨rec.type, 1⟩}
      else
        let predicate := pattern_matcher1 env.groups name
        let pool_match := st.pool.filter predicate
        match baseRemoveAll pool_match st.base_pool with
        | (bp, some x) => ({st with base_pool := bp}, some (.valueErrorRemove x))
        | (bp', none) =>
          let st1 := {st with base_pool := bp'}
          let add_count : Int := rec.count - pool_match.length
          if add_count > 0 then
            let r := alterAdd env name add_count.toNat st1
            match r.2 with
            | .error e => (r.1, some e)
            | .ok added =>
              let r2 := alterSetAddedLoop env ipv ats bottle_matcher adult_trade_matcher added r.1
              match r2.2 with
              | some e => (r2.1, some e)
              | none =>
                alterPhase2 env ipv ats blue_fire_arrows shuffle_child_trade bottle_matcher
                  child_trade_matcher adult_trade_matcher rest r2.1
          else
            let r := alterRemove env name (-add_count).toNat st1
            match r.2 with
            | .error e => (r.1, some e)
            | .ok removed =>
              let r2 := alterSetRemovedLoop env ipv ats bottle_matcher adult_trade_matcher removed r.1
              match r2.2 with
              | some e => (r2.1, some e)
              | none =>
                alterPhase2 env ipv ats blue_fire_arrows shuffle_child_trade bottle_matcher
                  child_trade_matcher adult_trade_matcher rest r2.1
    else
      alterPhase2 env ipv ats blue_fire_arrows shuffle_child_trade bottle_matcher
        child_trade_matcher adult_trade_matcher rest st

/-- Step between 2 and 3 of alter_pool: drop the deferred unshuffled
child-trade records from the plando item_pool. -/
def alterPhase3 (st : AlterSt) : AlterSt :=
  {st with item_pool := st.remove_trade.foldl (fun d k => dictDel d k) st.item_pool}

/-- Step 3 of alter_pool: a single corrective `#Bottle` removal or addition
brings the running bottle counter back to zero. -/
def alterPhase4 (env : PoolEnv) (st : AlterSt) : AlterSt × Option PErr :=
  if st.bottles > 0 then
    let r := alterRemove env "#Bottle" st.bottles.toNat st
    match r.2 with
    | .error e => (r.1, some e)
    | .ok _ => (r.1, none)
  else
    let r := alterAdd env "#Bottle" (-st.bottles).toNat st
    match r.2 with
    | .error e => (r.1, some e)
    | .ok _ => (r.1, none)

/-- Step 4 of alter_pool: remove one copy of each starting item's match from
the pool, with the documented trade/bottle/arrow special cases.  `KeyError`s
of the generic branch are swallowed (`except KeyError: pass`), keeping the
partially mutated state, exactly as the source does. -/
def alterPhase5 (env : PoolEnv) (ats : Bool) (blue_fire_arrows : Bool)
    (shuffle_child_trade adult_trade_start : List String)
    (bottle_matcher adult_trade_matcher : String → Bool) :
    List (String × SIVal) → AlterSt → AlterSt × Option PErr
  | [], st => (st, none)
  | (item_name, v) :: rest, st =>
    match v with
    | .world _ => (st, some .illTypedDoc)
    | .cnt c =>
      if bottle_matcher item_name then
        let r := alterRemove env "#Bottle" c.toNat st
        match r.2 with
        | .error e => (r.1, some e)
        | .ok _ =>
          alterPhase5 env ats blue_fire_arrows shuffle_child_trade adult_trade_start
            bottle_matcher adult_trade_matcher rest r.1
      else if (item_name == "Pocket Egg" || item_name == "Pocket Cucco") && ats then
        if adult_trade_start.contains "Pocket Egg" then
          let r := alterRemove env "Pocket Egg" c.toNat st
          match r.2 with
          | .error e =>
            (r.1, some (if e.isKeyError then .eggCuccoRemove else e))
          | .ok _ =>
            alterPhase5 env ats blue_fire_arrows shuffle_child_trade adult_trade_start
              bottle_matcher adult_trade_matcher rest r.1
        else if !(adult_trade_start.contains "Pocket Cucco") then
          (st, some (.unshuffledTradeStart item_name))
        else
          let r := alterRemove env "Pocket Cucco" c.toNat st
          match r.2 with
          | .error e =>
            (r.1, some (if e.isKeyError then .eggCuccoRemove else e))
          | .ok _ =>
            alterPhase5 env ats blue_fire_arrows shuffle_child_trade adult_trade_start
              bottle_matcher adult_trade_matcher rest r.1
      else if adult_trade_matcher item_name && !ats then
        let r := alterRemove env "#AdultTrade" c.toNat st
        match r.2 with
        | .error e => (r.1, some e)
        | .ok _ =>
          alterPhase5 env ats blue_fire_arrows shuffle_child_trade adult_trade_start
            bottle_matcher adult_trade_matcher rest r.1
      else if item_name == "Ice Arrows" && blue_fire_arrows then
        let r := alterRemove env "Blue Fire Arrows" c.toNat st
        match r.2 with
        | .error e => (r.1, some e)
        | .ok _ =>
          alterPhase5 env ats blue_fire_arrows shuffle_child_trade adult_trade_start
            bottle_matcher adult_trade_matcher rest r.1
      else if (item_name == "Weird Egg" || item_name == "Chicken") && !shuffle_child_trade.isEmpty then
        if shuffle_child_trade.contains "Weird Egg" then
          let r := alterRemove env "Weird Egg" c.toNat st
          match r.2 with
          | .error e =>
            (r.1, some (if e.isKeyError then .weirdEggChickenRemove else e))
          | .ok _ =>
            alterPhase5 env ats blue_fire_arrows shuffle_child_trade adult_trade_start
              bottle_matcher adult_trade_matcher rest r.1
        else if !(shuffle_child_trade.contains "Chicken") then
          (st, some (.unshuffledTradeStart item_name))
        else
          let r := alterRemove env "Chicken" c.toNat st
          match r.2 with
          | .error e =>
            (r.1, some (if e.isKeyError then .weirdEggChickenRemove else e))
          | .ok _ =>
            alterPhase5 env ats blue_fire_arrows shuffle_child_trade adult_trade_start
              bottle_matcher adult_trade_matcher rest r.1
      else if env.is_item item_name then
        let r := alterRemove env item_name c.toNat st
        let st1 := r.1
        match r.2 with
        | .error e =>
          if e.isKeyError then
            let st2 := if env.song_items.contains item_name then {st1 with song_as_items := true} else st1
            alterPhase5 env ats blue_fire_arrows shuffle_child_trade adult_trade_start
              bottle_matcher adult_trade_matcher rest st2
          else (st1, some e)
        | .ok _ =>
          let st2 := if env.song_items.contains item_name then {st1 with song_as_items := true} else st1
          alterPhase5 env ats blue_fire_arrows shuffle_child_trade adult_trade_start
            bottle_matcher adult_trade_matcher rest st2
      else
        alterPhase5 env ats blue_fire_arrows shuffle_child_trade adult_trade_start
          bottle_matcher adult_trade_matcher rest st

/-- Step 5 of alter_pool: `junk_to_add = pool_size - len(pool)`; add or remove
exactly that many junk items to restore the original size. -/
def alterJunk (env : PoolEnv) (pool_size : Nat) (st : AlterSt) :
    AlterSt × Except PErr (List String) :=
  let junk_to_add : Int := (pool_size : Int) - st.pool.length
  if junk_to_add > 0 then
    let r := alterAdd env "#Junk" junk_to_add.toNat st
    match r.2 with
    | .error e => (r.1, .error e)
    | .ok _ => (r.1, .ok r.1.pool)
  else
    let r := alterRemove env "#Junk" (-junk_to_add).toNat st
    match r.2 with
    | .error e => (r.1, .error e)
    | .ok _ => (r.1, .ok r.1.pool)

/-- The settings fields read by the embedded procedures. -/
structure WSettings where
  blue_fire_arrows : Bool
  item_pool_value : String
  adult_trade_shuffle : Bool
  shuffle_child_trade : List String
  adult_trade_start : List String
  shuffle_song_items : String
  disabled_locations : List String
  starting_items : List (String × SIVal)
  world_count : Nat
  enable_distribution_file : Bool
  deriving DecidableEq

/-- Sequencing of in-place steps: an error in the first component aborts with
the (mutated) state, otherwise the continuation runs on it. -/
def andThenE (x : AlterSt × Option PErr) (f : AlterSt → AlterSt × Except PErr (List String)) :
    AlterSt × Except PErr (List String) :=
  match x with
  | (st, some e) => (st, .error e)
  | (st, none) => f st

/-- WorldDistribution.alter_pool: record `base_pool` and the entry size, run
the strictly ordered steps, and finish with the corrective junk step; the
returned list is the threaded pool itself (the source returns the `pool`
object it mutated in place). -/
def alter_pool (env : PoolEnv) (settings : WSettings) (id : Nat)
    (item_pool_records : List (String × ItemPoolRecord)) (pool : List String)
    (rng : List Nat) : AlterSt × Except PErr (List String) :=
  let pool_size := pool.length
  let bottle_matcher := pattern_matcher1 env.groups "#Bottle"
  let adult_trade_matcher := pattern_matcher1 env.groups "#AdultTrade"
  let child_trade_matcher := pattern_matcher1 env.groups "#ChildTrade"
  let st0 : AlterSt := ⟨pool, pool, item_pool_records, false, 0, [], rng⟩
  andThenE (alterPhase1 env item_pool_records st0) (fun st1 =>
    andThenE (alterPhase2 env settings.item_pool_value settings.adult_trade_shuffle
        settings.blue_fire_arrows settings.shuffle_child_trade bottle_matcher
        child_trade_matcher adult_trade_matcher item_pool_records st1) (fun st2 =>
      andThenE (alterPhase4 env (alterPhase3 st2)) (fun st4 =>
        andThenE (alterPhase5 env settings.adult_trade_shuffle settings.blue_fire_arrows
            settings.shuffle_child_trade settings.adult_trade_start bottle_matcher
            adult_trade_matcher
            (starting_items settings.world_count id settings.starting_items) st4) (fun st5 =>
          alterJunk env pool_size st5))))

/-- An entrance as seen by set_shuffled_entrances: its name, type, current
connexion, parent region name, the parent region name of the entrance it
replaces (used for origin constraints on targets), and its world. -/
structure Entrance where
  name : String
  type : String
  connected_region : Option String
  parent_region : String
  replaces_parent : String
  world : Int
  deriving DecidableEq

/-- The per-pool body of set_shuffled_entrances for one record, folded over
the shuffled-entrance pools.  `connect` bundles the three external graph
calls of the try block (compatibility check, connection change, world
validation: an `EntranceShuffleError` reason or the updated graph state) and
`confirm` the external `confirm_replacement`.  The boolean accumulator is
`entrance_found`. -/
def setEntLoopPools {σ : Type} (connect : σ → Entrance → Entrance → Except String σ)
    (confirm : σ → Entrance → Entrance → σ) (idW : Int) (name : String)
    (target_region : String) (origin : Option String)
    (target_entrance_pools : List (String × List Entrance)) :
    List (String × List Entrance) → σ → Bool → Except PErr (σ × Bool)
  | [], st, found => .ok (st, found)
  | (pool_type, entrance_pool) :: restPools, st, found =>
    match entrance_pool.find? (fun e => e.name == name) with
    | none =>
      setEntLoopPools connect confirm idW name target_region origin target_entrance_pools
        restPools st found
    | some matched =>
      if matched.connected_region.isSome then
        if matched.type == "Overworld" then
          setEntLoopPools connect confirm idW name target_region origin target_entrance_pools
            restPools st true
        else .error (.entranceAlreadyShuffled idW name)
      else
        let matched_targets := ((dictFind target_entrance_pools pool_type).getD []).filter
          (fun t => match t.connected_region with
                    | some r => r == target_region
                    | none => false)
        match matched_targets with
        | [] => .error (.noTargetToRegion name target_region idW)
        | t0 :: _ =>
          let sel : Except PErr (Entrance × String) :=
            match origin with
            | some target_parent =>
              match matched_targets.find? (fun t => t.replaces_parent == target_parent) with
              | none => .error (.noTargetFromOrigin name target_region target_parent idW)
              | some t => .ok (t, target_parent)
            | none => .ok (t0, t0.parent_region)
          match sel with
          | .error e => .error e
          | .ok (t, target_parent) =>
            -- this guard is dead in the source: matched_targets only holds
            -- connected targets, but it is translated as written
            if t.connected_region.isNone then
              .error (.targetAlreadyShuffled target_region target_parent idW)
            else
              match connect st matched t with
              | .error reason => .error (.cannotConnect name idW reason)
              | .ok st' =>
                let st2 := confirm st' matched t
                setEntLoopPools connect confirm idW name target_region origin
                  target_entrance_pools restPools st2 true

/-- WorldDistribution.set_shuffled_entrances: for each record with a target
region, an unknown entrance name and an entrance not found in any shuffled
pool raise distinct errors; a found entrance is handled per pool by
`setEntLoopPools`. -/
def set_shuffled_entrances {σ : Type} (known_entrance : String → Bool)
    (connect : σ → Entrance → Entrance → Except String σ)
    (confirm : σ → Entrance → Entrance → σ) (id : Nat)
    (entrance_pools target_entrance_pools : List (String × List Entrance)) :
    List (String × EntranceRecord) → σ → Except PErr σ
  | [], st => .ok st
  | (name, record) :: rest, st =>
    match record.region with
    | none =>
      set_shuffled_entrances known_entrance connect confirm id entrance_pools
        target_entrance_pools rest st
    | some target_region =>
      if !known_entrance name then .error (.unknownEntrance ((id : Int) + 1) name)
      else
        match setEntLoopPools connect confirm ((id : Int) + 1) name target_region record.origin
            target_entrance_pools entrance_pools st false with
        | .error e => .error e
        | .ok (st', found) =>
          if !found then .error (.notShuffledPool ((id : Int) + 1) name)
          else
            set_shuffled_entrances known_entrance connect confirm id entrance_pools
              target_entrance_pools rest st'

/-- An item as seen by fill: its name, type, progression flag and world. -/
structure Item where
  name : String
  type : String
  advancement : Bool
  world : Int
  deriving DecidableEq

/-- A location as seen by fill: its name, type, price and world. -/
structure Location where
  name : String
  type : String
  price : Option Int
  world : Int
  deriving DecidableEq

/-- A world as seen by fill: its id, its settings and its own item pool
(`world.itempool`, read by get_valid_items_from_record). -/
structure WorldT where
  id : Int
  settings : WSettings
  itempool : List Item
  deriving DecidableEq

/-- External collaborators of the fill path. -/
structure FillEnv where
  groups : String → List String
  item_group : String → List String
  item_group_keys : List String
  is_item : String → Bool
  location_factory : String → Option Location
  vanilla_item : String → String
  song_list : List String
  item_factory : String → Int → Item
  item_factory0 : String → Item
  items_of_world : Int → List Item
  get_junk_item : Nat → Option (List String) → Option (List (String × ItemPoolRecord)) → List String
  all_locations : List Location
  can_beat : List (Location × Item) → List Item → Bool

/-- State threaded through fill. -/
structure FillSt where
  location_pools : List (List Location)
  item_pools : List (List Item)
  base_pool : List String
  item_pool : List (String × ItemPoolRecord)
  used_items : List String
  song_as_items : Bool
  placements : List (Location × Item)
  rng : List Nat
  deriving DecidableEq

/-- WorldDistribution.pattern_dict_items: pattern keys expand to all known
locations matching the pattern (the source notes the known oddity that an
inverted pattern pulls matches from the whole location space). -/
def pattern_dict_items {β : Type} (env : FillEnv) (pd : List (String × β)) : List (String × β) :=
  pd.flatMap (fun p =>
    if is_pattern p.1 then
      (env.all_locations.filter (fun loc => pattern_matcher1 env.groups p.1 loc.name)).map
        (fun loc => (loc.name, p.2))
    else [p])

/-- WorldDistribution.get_valid_items_from_record. -/
def get_valid_items_from_record (env : FillEnv) (itempool : List Item)
    (used_items : List String) (item : String ⊕ List String) : List String :=
  let predArg : PatternArg := match item with | .inl s => .str s | .inr l => .strs l
  let pred := pattern_matcher env.groups predArg
  let valid_items :=
    match item with
    | .inr choices =>
      (choices.filter (fun c => c.data.head? == some '#' &&
         env.item_group_keys.contains (String.mk c.data.tail) &&
         itempool.any (fun it => pred it.name)))
      ++ (itempool.filter (fun it => choices.contains it.name && pred it.name)).map (fun it => it.name)
    | .inl single =>
      if single.data.head? == some '#' && env.item_group_keys.contains (String.mk single.data.tail) then
        if itempool.any (fun it => pred it.name) then [single] else []
      else [single]
  used_items.foldl (fun vi u => vi.erase u) valid_items

/-- WorldDistribution.pool_replace_item: remove one random match of the group
owned by the player, fix up the plando item_pool bookkeeping, and build the
replacement item (junk via the external selector, otherwise a random known
item of the player's world matching the new name). -/
def pool_replace_item (env : FillEnv) (enable_distribution_file : Bool)
    (item_group : String) (player_id : Int) (new_item : String)
    (item_pool : List (String × ItemPoolRecord)) (st : RemovalSt Item) :
    (RemovalSt Item × List (String × ItemPoolRecord)) × Except PErr Item :=
  let r := pool_remove_item (fun it => it.name) (fun it => it.world) env.is_item env.groups
    item_group (some player_id) true 1 st
  match r.2 with
  | .error e => ((r.1, item_pool), .error e)
  | .ok removed_list =>
    match removed_list with
    | [] => ((r.1, item_pool), .error .indexErr)
    | removed :: _ =>
      match dictFind item_pool removed.name with
      | none => ((r.1, item_pool), .error (.dictKeyError removed.name))
      | some rec =>
        let item_pool2 :=
          if rec.count > 1 then dictSet item_pool removed.name ⟨rec.type, rec.count - 1⟩
          else dictDel item_pool removed.name
        if new_item == "#Junk" then
          if enable_distribution_file then
            match env.get_junk_item 1 (some r.1.base_pool) (some item_pool2) with
            | [] => ((r.1, item_pool2), .error .indexErr)
            | n :: _ => ((r.1, item_pool2), .ok (env.item_factory0 n))
          else
            match env.get_junk_item 1 none none with
            | [] => ((r.1, item_pool2), .error .indexErr)
            | n :: _ => ((r.1, item_pool2), .ok (env.item_factory0 n))
        else
          let item_matcher := fun (it : Item) => pattern_matcher1 env.groups new_item it.name
          match (env.items_of_world player_id).filter item_matcher with
          | [] => ((r.1, item_pool2), .error .indexErr)
          | c :: cs =>
            let chosen := (c :: cs).getD (rngHead r.1.rng % (c :: cs).length) c
            (({r.1 with rng := r.1.rng.drop 1}, item_pool2), .ok chosen)

/-- The "Ensure pool copy is persisted to real pool" loop of get_item.  Thanks
to aliasing the non-ignored entries of the working copy are the very pool
objects of `item_pools`, so after an in-place removal the real pools already
hold the updated contents; the loop only matters for the ignored entries,
whose `[]` stand-ins are skipped by the `if new_pool:` test.  The net effect
is: ignored indices keep the original pool, all others take the working
copy. -/
def persistPools (orig masked : List (List Item)) (ignore_pools : Option (List Nat)) :
    List (List Item) :=
  match ignore_pools with
  | none => masked
  | some ips =>
    if ips.isEmpty then masked
    else orig.enum.map (fun p => if ips.contains p.1 then p.2 else masked.getD p.1 [])

/-- The item_pool bookkeeping run after every successful substitution in
get_item (`if item.name not in self.item_pool: ... else: count += 1`). -/
def bumpItemPool (item_pool : List (String × ItemPoolRecord)) (name : String) :
    List (String × ItemPoolRecord) :=
  match dictFind item_pool name with
  | none => dictSet item_pool name ItemPoolRecord.default
  | some rec => dictSet item_pool name ⟨rec.type, rec.count + 1⟩

/-- WorldDistribution.get_item: build the working pool copy with the ignored
pools blanked out, try a direct removal of the requested item, and fall back
through the fixed substitution chain (shop-buy, bottle, adult trade, child
trade, arrow-variant rejection, junk) on a `KeyError`. -/
def get_item (env : FillEnv) (worlds : List WorldT) (dWorld : WorldT) (id : Nat)
    (dsettings : WSettings) (ignore_pools : Option (List Nat)) (location : Location)
    (player_id : Int) (itemName : String) (st : FillSt) : Except PErr (Item × FillSt) :=
  let world := (pyGetElem worlds player_id).getD dWorld
  let pool := match ignore_pools with
    | none => st.item_pools
    | some ips =>
      if ips.isEmpty then st.item_pools
      else st.item_pools.enum.map (fun p => if ips.contains p.1 then [] else p.2)
  let rst : RemovalSt Item := ⟨pool, st.base_pool, st.rng⟩
  let r := pool_remove_item (fun it => it.name) (fun it => it.world) env.is_item env.groups
    itemName (some player_id) true 1 rst
  match r.2 with
  | .ok l =>
    match l with
    | [] => .error (.unknownItemPlace itemName location.name ((id : Int) + 1))
    | item :: _ =>
      .ok (item, {st with item_pools := persistPools st.item_pools r.1.pools ignore_pools,
                          base_pool := r.1.base_pool, rng := r.1.rng})
  | .error e =>
    if e.isKeyError then
      if location.type == "Shop" && listContainsSub "Buy".data itemName.data then
        let r2 := pool_remove_item (fun it => it.name) (fun it => it.world) env.is_item
          env.groups "Buy *" (some player_id) true 1 r.1
        match r2.2 with
        | .ok [] => .error .indexErr
        | .ok (removed :: _) =>
          let ip2 :=
            if dictContains st.item_pool removed.name then
              match dictFind st.item_pool removed.name with
              | some rec =>
                if rec.count == 1 then dictDel st.item_pool removed.name
                else dictSet st.item_pool removed.name ⟨rec.type, rec.count - 1⟩
              | none => st.item_pool
            else st.item_pool
          let item := env.item_factory itemName world.id
          .ok (item, {st with item_pools := persistPools st.item_pools r2.1.pools ignore_pools,
                              base_pool := r2.1.base_pool, rng := r2.1.rng,
                              item_pool := bumpItemPool ip2 item.name})
        | .error e2 =>
          if e2.isKeyError then .error (.tooManyShopBuy ((id : Int) + 1)) else .error e2
      else if (env.item_group "Bottle").contains itemName then
        let r2 := pool_replace_item env dsettings.enable_distribution_file "#Bottle" player_id
          itemName st.item_pool r.1
        match r2.2 with
        | .error e2 =>
          if e2.isKeyError then .error (.tooManyBottles ((id : Int) + 1)) else .error e2
        | .ok item =>
          .ok (item, {st with item_pools := persistPools st.item_pools r2.1.1.pools ignore_pools,
                              base_pool := r2.1.1.base_pool, rng := r2.1.1.rng,
                              item_pool := bumpItemPool r2.1.2 item.name})
      else if (env.item_group "AdultTrade").contains itemName && !world.settings.adult_trade_shuffle then
        let r2 := pool_replace_item env dsettings.enable_distribution_file "#AdultTrade" player_id
          itemName st.item_pool r.1
        match r2.2 with
        | .error e2 =>
          if e2.isKeyError then .error (.tooManyAdultTrade ((id : Int) + 1)) else .error e2
        | .ok item =>
          .ok (item, {st with item_pools := persistPools st.item_pools r2.1.1.pools ignore_pools,
                              base_pool := r2.1.1.base_pool, rng := r2.1.1.rng,
                              item_pool := bumpItemPool r2.1.2 item.name})
      else if (env.item_group "ChildTrade").contains itemName &&
          !(world.settings.shuffle_child_trade.contains itemName) then
        let r2 := pool_replace_item env dsettings.enable_distribution_file "#ChildTrade" player_id
          itemName st.item_pool r.1
        match r2.2 with
        | .error e2 =>
          if e2.isKeyError then .error (.tooManyChildTrade ((id : Int) + 1)) else .error e2
        | .ok item =>
          .ok (item, {st with item_pools := persistPools st.item_pools r2.1.1.pools ignore_pools,
                              base_pool := r2.1.1.base_pool, rng := r2.1.1.rng,
                              item_pool := bumpItemPool r2.1.2 item.name})
      else if itemName == "Ice Arrows" && (worlds.headD dWorld).settings.blue_fire_arrows then
        .error .iceArrows
      else if itemName == "Blue Fire Arrows" && !(worlds.headD dWorld).settings.blue_fire_arrows then
        .error .blueFireArrows
      else
        -- the junk substitution works on the real, unmasked item_pools; the
        -- persist loop is then a no-op thanks to the aliasing described at
        -- persistPools
        let r2 := pool_replace_item env dsettings.enable_distribution_file "#Junk" player_id
          itemName st.item_pool ⟨st.item_pools, r.1.base_pool, r.1.rng⟩
        match r2.2 with
        | .error e2 =>
          if e2.isKeyError then .error (.tooManyItems ((id : Int) + 1))
          else if e2 == .indexErr then
            .error (.unknownItemPlace itemName location.name ((id : Int) + 1))
          else .error e2
        | .ok item =>
          .ok (item, {st with item_pools := r2.1.1.pools,
                              base_pool := r2.1.1.base_pool, rng := r2.1.1.rng,
                              item_pool := bumpItemPool r2.1.2 item.name})
    else if e == .indexErr then .error (.unknownItemPlace itemName location.name ((id : Int) + 1))
    else .error e

/-- Python `random.sample(population, k)` driven by the explicit stream:
repeatedly draw an index among the remaining elements.  Only the resulting
permutation matters for the embedding. -/
def pySampleGo : Nat → List α → List Nat → List α × List Nat
  | 0, _, rng => ([], rng)
  | n+1, l, rng =>
    match l with
    | [] => ([], rng)
    | c :: _ =>
      let k := rngHead rng % l.length
      let x := l.getD k c
      let r := pySampleGo n (l.eraseIdx k) (rng.drop 1)
      (x :: r.1, r.2)

/-- `random.sample(l, len(l))`: a stream-driven permutation of `l`. -/
def pySample (l : List α) (rng : List Nat) : List α × List Nat :=
  pySampleGo l.length l rng

/-- Python `str.lower()` on the character list of the string (ASCII-faithful
for the location names involved). -/
def pyLower (s : String) : String :=
  String.mk (s.data.map Char.toLower)

/-- The body of WorldDistribution.fill for one `(location_name, record)` pair,
up to and including `push_item`.  The result carries the placement made (the
location, the pushed item and the owning player) or `none` when the record
was skipped, so the caller can run the reachability gate exactly where the
source does.  The source also writes the chosen item name back into the
record (`record.item = ...`); that write only feeds the output document and
has no further reader inside fill. -/
def fill_step (env : FillEnv) (worlds : List WorldT) (dWorld : WorldT) (id : Nat)
    (dsettings : WSettings) (fillable_locations : List Location)
    (location_name : String) (record : LocationRecord) (st : FillSt) :
    Except PErr (FillSt × Option (Location × Item × Int)) :=
  let world := (pyGetElem worlds (id : Int)).getD dWorld
  match record.item with
  | none => .ok (st, none)
  | some recItem0 =>
    let location_matcher := fun (loc : Location) =>
      loc.world == world.id && pyLower loc.name == pyLower location_name
    let pf := pull_first_element location_matcher true st.location_pools
    match pf.1 with
    | none =>
      match env.location_factory location_name with
      | none => .error (.unknownLocation location_name)
      | some location =>
        if location.type == "Boss" then .ok (st, none)
        else if world.settings.disabled_locations.contains location.name then .ok (st, none)
        else if fillable_locations.any location_matcher then
          .error (.locationAlreadyFilled ((id : Int) + 1) location_name)
        else .ok (st, none)
    | some location =>
      let st0 := {st with location_pools := pf.2}
      let valid_items :=
        if recItem0 == Sum.inl "#Vanilla" then [env.vanilla_item location_name]
        else get_valid_items_from_record env world.itempool st0.used_items recItem0
      let chosen : Except PErr (String × List Nat × List String) :=
        if valid_items.isEmpty then
          match recItem0 with
          | .inr choices =>
            let limited := ["#ChildTrade", "#AdultTrade", "#Bottle"]
            let allowed := choices.filter (fun item =>
              !(limited.contains item || (env.item_group "Bottle").contains item ||
                (env.item_group "AdultTrade").contains item ||
                (env.item_group "ChildTrade").contains item))
            match allowed with
            | [] => .error .indexErr
            | c :: cs =>
              .ok ((c :: cs).getD (rngHead st0.rng % (c :: cs).length) c,
                   st0.rng.drop 1, st0.used_items)
          | .inl single => .ok (single, st0.rng, st0.used_items)
        else
          match valid_items with
          | [] => .error .indexErr
          | c :: cs =>
            let pick := (c :: cs).getD (rngHead st0.rng % (c :: cs).length) c
            let used2 := if pick.data.head? != some '#' then st0.used_items ++ [pick]
                         else st0.used_items
            .ok (pick, st0.rng.drop 1, used2)
      match chosen with
      | .error e => .error e
      | .ok (itemName0, rng1, used1) =>
        let st1 := {st0 with rng := rng1, used_items := used1}
        let player_id : Int := match record.player with | none => (id : Int) | some p => p - 1
        if (env.item_group "DungeonReward").contains itemName0 then
          .error (.dungeonReward itemName0 ((id : Int) + 1) location_name)
        else
          let itemName :=
            if itemName0 == "#Junk" && location.type == "Song" &&
                world.settings.shuffle_song_items == "song" &&
                !(world.settings.starting_items.any (fun p =>
                    env.song_list.contains p.1 &&
                    (match p.2 with | .cnt c => c != 0 | .world _ => false)))
            then "#JunkSong" else itemName0
          let is_invert := pattern_matcher1 env.groups itemName "!"
          let ip1 : Option (List Nat) :=
            if is_invert && location.type != "Song" && world.settings.shuffle_song_items == "song"
            then some [2] else none
          let ip2 :=
            if is_invert && location.type == "Song" && world.settings.shuffle_song_items == "song"
            then some ((List.range st1.item_pools.length).filter (fun i => i != 2)) else ip1
          let ignore_pools :=
            if location.type == "Shop" && location.price == none then
              some ((List.range st1.item_pools.length).filter (fun i => i != 0))
            else
              match ip2 with
              | none => some [0]
              | some l => some (l ++ [0])
          match get_item env worlds dWorld id dsettings ignore_pools location player_id
              itemName st1 with
          | .error e => .error e
          | .ok (item, st2) =>
            let st3 := if location.type == "Song" && item.type != "Song"
              then {st2 with song_as_items := true} else st2
            let st4 := {st3 with placements := st3.placements ++ [(location, item)]}
            .ok (st4, some (location, item, player_id))

/-- The record loop of WorldDistribution.fill, including the reachability
gate that runs right after an advancement item is pushed and before the next
record is examined. -/
def fill_loop (env : FillEnv) (worlds : List WorldT) (dWorld : WorldT) (id : Nat)
    (dsettings : WSettings) (fillable_locations : List Location) :
    List (String × LocationRecord) → FillSt → Except PErr FillSt
  | [], st => .ok st
  | (name, record) :: rest, st =>
    match fill_step env worlds dWorld id dsettings fillable_locations name record st with
    | .error e => .error e
    | .ok (st', none) =>
      fill_loop env worlds dWorld id dsettings fillable_locations rest st'
    | .ok (st', some (location, item, player_id)) =>
      if item.advancement then
        if env.can_beat st'.placements st'.item_pools.flatten then
          fill_loop env worlds dWorld id dsettings fillable_locations rest st'
        else .error (.fillError location.name ((id : Int) + 1) item.name (player_id + 1))
      else fill_loop env worlds dWorld id dsettings fillable_locations rest st'

/-- WorldDistribution.fill: snapshot the fillable locations, shuffle the
record keys once, expand pattern keys, and process the records through
`fill_loop`. -/
def fill (env : FillEnv) (worlds : List WorldT) (dWorld : WorldT) (id : Nat)
    (dsettings : WSettings) (self_locations : List (String × LocationRecord))
    (st : FillSt) : Except PErr FillSt :=
  let fillable_locations := st.location_pools.flatten
  let keys := (self_locations.map Prod.fst).mergeSort (fun a b => a ≤ b)
  let sampled := pySample keys st.rng
  let locations := sampled.1.filterMap (fun k => (dictFind self_locations k).map (fun v => (k, v)))
  let st1 := {st with rng := sampled.2}
  fill_loop env worlds dWorld id dsettings fillable_locations
    (pattern_dict_items env locations) st1

/-- A tiny concrete pool environment used to exercise the pool procedures on
closed inputs: one known item name `Bottle`, in both the `Bottle` and `Junk`
groups, and a junk selector producing `Junk` copies. -/
def cEnvC1 : PoolEnv where
  groups := fun g => if g == "Bottle" then ["Bottle"] else if g == "Junk" then ["Bottle"] else []
  is_item := fun s => s == "Bottle"
  all_item_names := ["Bottle"]
  get_junk_item := fun n _ _ => List.replicate n "Junk"
  song_items := []

/-- Concrete settings used on closed inputs. -/
def cSettingsC1 : WSettings where
  blue_fire_arrows := false
  item_pool_value := "balanced"
  adult_trade_shuffle := false
  shuffle_child_trade := []
  adult_trade_start := []
  shuffle_song_items := "off"
  disabled_locations := []
  starting_items := []
  world_count := 1
  enable_distribution_file := true

/-- Concrete advancement item for exercising the fill gate. -/
def cItemC3 : Item := ⟨"Iron Boots", "Item", true, 0⟩

/-- Concrete location for exercising the fill gate. -/
def cLocC3 : Location := ⟨"ZF Iceberg", "Chest", none, 0⟩

/-- Concrete world for exercising the fill gate. -/
def cWorldC3 : WorldT := ⟨0, cSettingsC1, [cItemC3]⟩

/-- A fill environment whose reachability oracle always reports the game
unbeatable, so the gate must fire on any advancement placement. -/
def cFillEnvC3 : FillEnv where
  groups := fun _ => []
  item_group := fun _ => []
  item_group_keys := []
  is_item := fun s => s == "Iron Boots"
  location_factory := fun _ => none
  vanilla_item := fun _ => ""
  song_list := []
  item_factory := fun n w => ⟨n, "Item", true, w⟩
  item_factory0 := fun n => ⟨n, "Item", true, 0⟩
  items_of_world := fun _ => []
  get_junk_item := fun n _ _ => List.replicate n "Junk"
  all_locations := []
  can_beat := fun _ _ => false

/-- A location record requesting the advancement item by exact name. -/
def cRecC3 : LocationRecord := ⟨some (.inl "Iron Boots"), none, none, none⟩

/-- Fill state before the gated placement: the location in pool 0, the item in
item pool 1 (pool 0 is the one fill always masks), the item in the base
pool. -/
def cStC3 : FillSt := ⟨[[cLocC3]], [[], [cItemC3]], ["Iron Boots"], [], [], false, [], []⟩

/-- Fill state right after the placement that trips the gate. -/
def cSt4C3 : FillSt := ⟨[[]], [[], []], [], [], ["Iron Boots"], false, [(cLocC3, cItemC3)], []⟩

-- DEFINITIONS-END-MARKER (concrete fixtures for witnesses are inserted above)

theorem prCandidates_eq_nil_iff {α : Type} (pred : α → Bool) (i : Nat) (pools : List (List α)) :
    prCandidates pred i pools = [] ↔ ∀ pool ∈ pools, ∀ e ∈ pool, pred e = false := by
  induction pools generalizing i with
  | nil => simp [prCandidates]
  | cons pool rest ih =>
    simp [prCandidates, List.append_eq_nil, List.filter_eq_nil_iff, ih]

theorem mem_prCandidates {α : Type} {pred : α → Bool} {e : α} {j i : Nat}
    {pools : List (List α)} (h : (e, j) ∈ prCandidates pred i pools) :
    i ≤ j ∧ ∃ pool, pools[j - i]? = some pool ∧ e ∈ pool ∧ pred e = true := by
  induction pools generalizing i with
  | nil => simp [prCandidates] at h
  | cons pool rest ih =>
    simp only [prCandidates, List.mem_append, List.mem_map, List.mem_filter] at h
    rcases h with ⟨x, ⟨hx, hpx⟩, hxe⟩ | h
    · cases hxe
      exact ⟨Nat.le_refl _, pool, by simp, hx, hpx⟩
    · obtain ⟨hij, pool', hget, hmem, hpred⟩ := ih h
      refine ⟨Nat.le_of_succ_le hij, pool', ?_, hmem, hpred⟩
      have : j - i = (j - (i+1)) + 1 := by omega
      simp only [this, List.getElem?_cons_succ]
      exact hget

theorem getD_mem {α : Type} {l : List α} {d : α} (hd : d ∈ l) (k : Nat) : l.getD k d ∈ l := by
  rcases h : l[k]? with _ | x
  · simpa [List.getD, h] using hd
  · have hx : x ∈ l := List.getElem?_mem h
    simpa [List.getD, h] using hx

theorem pull_none_iff {α : Type} [DecidableEq α] (pools : List (List α)) (pred : α → Bool)
    (remove : Bool) (rng : List Nat) :
    (pull_random_element pools pred remove rng).1 = none ↔
      ∀ pool ∈ pools, ∀ e ∈ pool, pred e = false := by
  unfold pull_random_element
  rcases h : prCandidates pred 0 pools with _ | ⟨c, cs⟩
  · simpa using (prCandidates_eq_nil_iff pred 0 pools).mp h
  · constructor
    · intro hc; cases remove <;> simp at hc
    · intro hall
      exfalso
      have hcmem : (c.1, c.2) ∈ prCandidates pred 0 pools := by
        rw [Prod.mk.eta, h]; exact List.mem_cons_self _ _
      obtain ⟨-, pool, hget, hmem, hpred⟩ := mem_prCandidates hcmem
      have hpl : pool ∈ pools := List.getElem?_mem hget
      rw [hall pool hpl c.1 hmem] at hpred
      exact Bool.false_ne_true hpred

theorem pull_random_element_eq_cons {α : Type} [DecidableEq α] {pools : List (List α)}
    {pred : α → Bool} (remove : Bool) (rng : List Nat) {c : α × Nat} {cs : List (α × Nat)}
    (hc : prCandidates pred 0 pools = c :: cs) :
    pull_random_element pools pred remove rng =
      (some ((c :: cs).getD (rngHead rng % (c :: cs).length) c).1,
       (if remove then
          pools.set ((c :: cs).getD (rngHead rng % (c :: cs).length) c).2
            ((pools.getD ((c :: cs).getD (rngHead rng % (c :: cs).length) c).2 []).erase
              ((c :: cs).getD (rngHead rng % (c :: cs).length) c).1)
        else pools),
       rng.drop 1) := by
  unfold pull_random_element
  rw [hc]
  cases remove <;> rfl

theorem pull_some_pred {α : Type} [DecidableEq α] {pools : List (List α)} {pred : α → Bool}
    {remove : Bool} {rng : List Nat} {e : α}
    (h : (pull_random_element pools pred remove rng).1 = some e) : pred e = true := by
  rcases hc : prCandidates pred 0 pools with _ | ⟨c, cs⟩
  · unfold pull_random_element at h
    rw [hc] at h; simp at h
  · rw [pull_random_element_eq_cons remove rng hc] at h
    generalize hP : (c :: cs).getD (rngHead rng % (c :: cs).length) c = p at h
    have h1 : p.1 = e := Option.some.inj h
    have hpmem : (p.1, p.2) ∈ prCandidates pred 0 pools := by
      rw [Prod.mk.eta, hc, ← hP]; exact getD_mem (List.mem_cons_self _ _) _
    obtain ⟨-, pool, hget, hmem, hpred⟩ := mem_prCandidates hpmem
    rwa [h1] at hpred

theorem pull_some_remove {α : Type} [DecidableEq α] {pools : List (List α)} {pred : α → Bool}
    {rng : List Nat} {e : α}
    (h : (pull_random_element pools pred true rng).1 = some e) :
    ∃ j pool, pools[j]? = some pool ∧ e ∈ pool ∧ pred e = true ∧
      (pull_random_element pools pred true rng).2.1 = pools.set j (pool.erase e) := by
  rcases hc : prCandidates pred 0 pools with _ | ⟨c, cs⟩
  · unfold pull_random_element at h
    rw [hc] at h; simp at h
  · rw [pull_random_element_eq_cons true rng hc] at h ⊢
    generalize hP : (c :: cs).getD (rngHead rng % (c :: cs).length) c = p at h ⊢
    rw [if_pos rfl] at h ⊢
    have h1 : p.1 = e := Option.some.inj h
    have hpmem : (p.1, p.2) ∈ prCandidates pred 0 pools := by
      rw [Prod.mk.eta, hc, ← hP]; exact getD_mem (List.mem_cons_self _ _) _
    obtain ⟨-, pool, hget, hmem, hpred⟩ := mem_prCandidates hpmem
    have hget' : pools[p.2]? = some pool := by simpa using hget
    refine ⟨p.2, pool, hget', by rwa [h1] at hmem, by rwa [h1] at hpred, ?_⟩
    simp [List.getD, hget', h1]

theorem sum_lengths_set_erase {α : Type} [DecidableEq α] {pools : List (List α)} {j : Nat}
    {pool : List α} {e : α} (hget : pools[j]? = some pool) (hmem : e ∈ pool) :
    ((pools.set j (pool.erase e)).map List.length).sum + 1 = (pools.map List.length).sum := by
  induction pools generalizing j with
  | nil => simp at hget
  | cons p rest ih =>
    cases j with
    | zero =>
      simp only [List.getElem?_cons_zero, Option.some.injEq] at hget
      subst hget
      have h1 : 1 ≤ p.length := List.length_pos_of_mem hmem
      simp [List.length_erase_of_mem hmem]
      omega
    | succ j =>
      simp only [List.getElem?_cons_succ] at hget
      have hih := ih hget
      have hset : (p :: rest).set (j+1) (pool.erase e) = p :: rest.set j (pool.erase e) := rfl
      rw [hset]
      simp only [List.map_cons, List.sum_cons]
      omega

/-- C10: pull_random_element returns `none` iff no element of any pool
satisfies the predicate; otherwise it returns an element satisfying the
predicate, and with removal enabled exactly one occurrence of that element is
erased from exactly one pool: the result pools are the input pools with pool
`j` replaced by `pool.erase e` (all other pools unchanged), and the total
element count drops by exactly one. -/
theorem pull_random_element_spec {α : Type} [DecidableEq α] (pools : List (List α))
    (pred : α → Bool) (remove : Bool) (rng : List Nat) :
    ((pull_random_element pools pred remove rng).1 = none ↔
      ∀ pool ∈ pools, ∀ e ∈ pool, pred e = false)
    ∧ (∀ e, (pull_random_element pools pred remove rng).1 = some e → pred e = true)
    ∧ (∀ e, (pull_random_element pools pred true rng).1 = some e →
        ∃ j pool, pools[j]? = some pool ∧ e ∈ pool ∧
          (pull_random_element pools pred true rng).2.1 = pools.set j (pool.erase e) ∧
          ((pull_random_element pools pred true rng).2.1.map List.length).sum + 1 =
            (pools.map List.length).sum) := by
  refine ⟨pull_none_iff pools pred remove rng, fun e h => pull_some_pred h, fun e h => ?_⟩
  obtain ⟨j, pool, hget, hmem, -, hset⟩ := pull_some_remove h
  exact ⟨j, pool, hget, hmem, hset, by rw [hset]; exact sum_lengths_set_erase hget hmem⟩

/-- Witness for pull_random_element_spec at a concrete input: among the pools
`[[2, 3], [4]]` the even elements are `2` and `4`; with draw `1` the element
`4` is returned, it satisfies the predicate, and it is removed from the second
pool. -/
theorem pull_random_element_spec_witness :
    (pull_random_element [[2, 3], [4]] (fun n => n % 2 == 0) true [1]).1 = some 4 ∧
    (fun n => n % 2 == 0) 4 = true ∧
    (pull_random_element [[2, 3], [4]] (fun n => n % 2 == 0) true [1]).2.1 = [[2, 3], []] := by
  have h := (pull_random_element_spec [[2, 3], [4]] (fun n => n % 2 == 0) true [1]).2.1
  exact ⟨by decide, h 4 (by decide), by decide⟩
theorem pattern_foldl_or (ms : List (String → Bool)) (acc : String → Bool) (s : String) :
    (ms.foldl (fun acc m => fun item => m item || acc item) acc) s =
      (ms.any (fun m => m s) || acc s) := by
  induction ms generalizing acc with
  | nil => simp
  | cons m rest ih =>
    simp only [List.foldl_cons, List.any_cons, ih]
    cases m s <;> cases acc s <;> simp

theorem pattern_matcher_strs (groups : String → List String) (ps : List String) (s : String) :
    pattern_matcher groups (.strs ps) s = ps.any (fun p => pattern_matcher1 groups p s) := by
  simp only [pattern_matcher]
  rw [pattern_foldl_or]
  simp only [Bool.or_false]
  induction ps with
  | nil => rfl
  | cons p rest ih => simp only [List.map_cons, List.any_cons, ih]

theorem pm1_invert (groups : String → List String) (q s : String)
    (hq : q.data.head? ≠ some (Char.ofNat 33)) :
    pattern_matcher1 groups ("!" ++ q) s = !(pattern_matcher1 groups q s) := by
  have hd : ("!" ++ q).data = '!' :: q.data := by simp
  unfold pattern_matcher1
  rw [hd]
  simp only [List.head?_cons, List.tail_cons, beq_self_eq_true, if_true]
  have hq' : (q.data.head? == some '!') = false := by simpa using hq
  rw [hq']
  simp only [Bool.false_eq_true, if_false]
  split_ifs <;> simp
theorem string_data_beq (q s : String) : (q.data == s.data) = (q == s) := by
  apply Bool.coe_iff_coe.mp
  simp [String.ext_iff]

theorem listContainsSub_iff_infix (p s : List Char) :
    listContainsSub p s = true ↔ p <:+: s := by
  unfold listContainsSub
  simp only [List.any_eq_true, List.mem_tails, List.isPrefixOf_iff_prefix]
  constructor
  · rintro ⟨t, hts, hpt⟩
    exact hpt.isInfix.trans hts.isInfix
  · intro h
    obtain ⟨t, ht, hp⟩ := List.infix_iff_prefix_suffix.mp h
    exact ⟨t, hp, ht⟩

theorem pm1_exact (groups : String → List String) (q s : String)
    (h1 : q.data.head? ≠ some '!') (h2 : q.data.head? ≠ some '#')
    (h3 : q.data.head? ≠ some '*') (h4 : q.data.getLast? ≠ some '*') :
    pattern_matcher1 groups q s = (q == s) := by
  unfold pattern_matcher1
  have e1 : (q.data.head? == some '!') = false := by simpa using h1
  have e2 : (q.data.head? == some '#') = false := by simpa using h2
  have e3 : (q.data.head? == some '*') = false := by simpa using h3
  have e4 : (q.data.getLast? == some '*') = false := by simpa using h4
  simp only [e1, e2, e3, e4, Bool.false_eq_true, if_false]
  simp [string_data_beq]

theorem pm1_suffix (groups : String → List String) (q s : String)
    (h : q.data.getLast? ≠ some '*') :
    pattern_matcher1 groups ("*" ++ q) s = q.data.isSuffixOf s.data := by
  have hd : ("*" ++ q).data = '*' :: q.data := by simp
  unfold pattern_matcher1
  rw [hd]
  have e4 : (q.data.getLast? == some '*') = false := by simpa using h
  simp only [List.head?_cons, List.tail_cons, e4]
  simp [h]

theorem pm1_starts (groups : String → List String) (q s : String) (hne : q ≠ "")
    (h1 : q.data.head? ≠ some '!') (h2 : q.data.head? ≠ some '#')
    (h3 : q.data.head? ≠ some '*') :
    pattern_matcher1 groups (q ++ "*") s = List.isPrefixOf q.data s.data := by
  have hd : (q ++ "*").data = q.data ++ ['*'] := by simp
  have hqd : q.data ≠ [] := by
    intro hq
    exact hne (by apply String.ext; simp [hq])
  have hh : (q.data ++ ['*']).head? = q.data.head? := by
    rcases hqq : q.data with _ | ⟨c, cd⟩
    · exact absurd hqq hqd
    · simp
  have e1 : (q.data.head? == some '!') = false := by simpa using h1
  have e2 : (q.data.head? == some '#') = false := by simpa using h2
  have e3 : (q.data.head? == some '*') = false := by simpa using h3
  unfold pattern_matcher1
  rw [hd]
  simp only [hh, e1, Bool.false_eq_true, if_false, e2, e3, List.getLast?_concat,
    List.dropLast_concat]
  simp

theorem pm1_substring (groups : String → List String) (q s : String) :
    pattern_matcher1 groups ("*" ++ q ++ "*") s = listContainsSub q.data s.data := by
  have hd : ("*" ++ q ++ "*").data = '*' :: (q.data ++ ['*']) := by simp
  unfold pattern_matcher1
  rw [hd]
  simp only [List.head?_cons, List.tail_cons, List.getLast?_concat, List.dropLast_concat]
  simp

/-- C2: the compiled pattern predicate: a leading `!` inverts the final
result; a leading `*` alone makes a suffix match, a trailing `*` alone a
prefix match, both a substring match, and neither an exact equality test; the
compiled `*Sword` matches `Kokiri Sword` and not `Sword Kokiri`; the compiled
`!Bow` matches every name except `Bow`; a list pattern compiles to the
logical OR of its elements' predicates (inversion per element). -/
theorem pattern_matcher_spec (groups : String → List String) :
    (∀ q s, q.data.head? ≠ some '!' →
      pattern_matcher1 groups ("!" ++ q) s = !(pattern_matcher1 groups q s))
    ∧ (∀ q s, q.data.getLast? ≠ some '*' →
      (pattern_matcher1 groups ("*" ++ q) s = true ↔ q.data <:+ s.data))
    ∧ (∀ q s, q ≠ "" → q.data.head? ≠ some '!' → q.data.head? ≠ some '#' →
        q.data.head? ≠ some '*' →
      (pattern_matcher1 groups (q ++ "*") s = true ↔ q.data <+: s.data))
    ∧ (∀ q s, pattern_matcher1 groups ("*" ++ q ++ "*") s = true ↔ q.data <:+: s.data)
    ∧ (∀ q s, q.data.head? ≠ some '!' → q.data.head? ≠ some '#' →
        q.data.head? ≠ some '*' → q.data.getLast? ≠ some '*' →
      (pattern_matcher1 groups q s = true ↔ q = s))
    ∧ (pattern_matcher1 groups "*Sword" "Kokiri Sword" = true ∧
       pattern_matcher1 groups "*Sword" "Sword Kokiri" = false)
    ∧ (∀ s, pattern_matcher1 groups "!Bow" s = true ↔ s ≠ "Bow")
    ∧ (∀ ps s, pattern_matcher groups (.strs ps) s =
        ps.any (fun p => pattern_matcher1 groups p s)) := by
  refine ⟨fun q s hq => pm1_invert groups q s hq,
          fun q s h => ?_, fun q s hne h1 h2 h3 => ?_, fun q s => ?_,
          fun q s h1 h2 h3 h4 => ?_, ⟨?_, ?_⟩, fun s => ?_,
          fun ps s => pattern_matcher_strs groups ps s⟩
  · rw [pm1_suffix groups q s h]
    exact List.isSuffixOf_iff_suffix
  · rw [pm1_starts groups q s hne h1 h2 h3]
    exact List.isPrefixOf_iff_prefix
  · rw [pm1_substring groups q s]
    exact listContainsSub_iff_infix q.data s.data
  · rw [pm1_exact groups q s h1 h2 h3 h4]
    exact beq_iff_eq
  · have hs : ("*" ++ "Sword" : String) = "*Sword" := by decide
    rw [← hs, pm1_suffix groups "Sword" "Kokiri Sword" (by decide)]
    decide
  · have hs : ("*" ++ "Sword" : String) = "*Sword" := by decide
    rw [← hs, pm1_suffix groups "Sword" "Sword Kokiri" (by decide)]
    decide
  · have hb : ("!" ++ "Bow" : String) = "!Bow" := by decide
    rw [← hb, pm1_invert groups "Bow" s (by decide),
        pm1_exact groups "Bow" s (by decide) (by decide) (by decide) (by decide)]
    constructor
    · intro h heq
      rw [heq] at h
      simp at h
    · intro hne
      have : ("Bow" == s) = false := by
        rcases h : "Bow" == s with _ | _
        · rfl
        · exact absurd (beq_iff_eq.mp h).symm hne
      rw [this]
      rfl

/-- Witness for pattern_matcher_spec at concrete inputs: `!Bow` inverts the
`Bow` matcher on `Kokiri Sword`, and `*Sword` is a suffix match. -/
theorem pattern_matcher_spec_witness :
    pattern_matcher1 (fun _ => []) ("!" ++ "Bow") "Kokiri Sword" =
      !(pattern_matcher1 (fun _ => []) "Bow" "Kokiri Sword") ∧
    (pattern_matcher1 (fun _ => []) ("*" ++ "Sword") "Kokiri Sword" = true ↔
      "Sword".data <:+ "Kokiri Sword".data) := by
  have h := pattern_matcher_spec (fun _ => [])
  exact ⟨h.1 "Bow" "Kokiri Sword" (by decide), h.2.1 "Sword" "Kokiri Sword" (by decide)⟩

/-- C9: ItemPoolRecord.update errors exactly when the resulting count is
negative (count checked first) or the resulting type is not one of
add/remove/set, and otherwise leaves type and count as given; the same holds
for full construction from a document, and an incremental update keeps an
absent field's current value. -/
theorem itemPoolRecord_update_spec (r : ItemPoolRecord) (t : String) (c : Int) (ua : Bool) :
    (0 ≤ c → (t = "add" ∨ t = "remove" ∨ t = "set") →
      r.update (some t) (some c) ua = .ok ⟨t, c⟩)
    ∧ (c < 0 → r.update (some t) (some c) ua = .error .negativeCount)
    ∧ (0 ≤ c → ¬(t = "add" ∨ t = "remove" ∨ t = "set") →
      r.update (some t) (some c) ua = .error .badPoolType)
    ∧ (0 ≤ c → (r.type = "add" ∨ r.type = "remove" ∨ r.type = "set") →
      r.update none (some c) false = .ok ⟨r.type, c⟩)
    ∧ (0 ≤ c → (t = "add" ∨ t = "remove" ∨ t = "set") →
      ItemPoolRecord.ofDoc (.dict [("type", JVal.s t), ("count", JVal.n c)]) = .ok ⟨t, c⟩)
    ∧ (c < 0 →
      ItemPoolRecord.ofDoc (.dict [("type", JVal.s t), ("count", JVal.n c)]) =
        .error .negativeCount) := by
  have hfind : ∀ v w, dictFind [("type", JVal.s v), ("count", JVal.n w)] "type" = some (.s v) ∧
      dictFind [("type", JVal.s v), ("count", JVal.n w)] "count" = some (.n w) := by
    intro v w
    constructor <;> rfl
  refine ⟨fun hc ht => ?_, fun hc => ?_, fun hc ht => ?_, fun hc hrt => ?_,
          fun hc ht => ?_, fun hc => ?_⟩
  · have hnc : ¬ (c < 0) := by omega
    rcases ht with rfl | rfl | rfl <;> simp [ItemPoolRecord.update, hnc]
  · simp [ItemPoolRecord.update, hc]
  · have hnc : ¬ (c < 0) := by omega
    have hcon : (["add", "remove", "set"].contains t) = false := by
      rw [Bool.eq_false_iff]
      intro hc2
      have hm : t ∈ ["add", "remove", "set"] := List.mem_of_elem_eq_true hc2
      simp only [List.mem_cons, List.not_mem_nil, or_false] at hm
      exact ht hm
    simp [ItemPoolRecord.update, hnc, hcon]
    push_neg at ht
    exact ht
  · have hnc : ¬ (c < 0) := by omega
    rcases hrt with h | h | h <;>
      simp [ItemPoolRecord.update, hnc, h]
  · have hnc : ¬ (c < 0) := by omega
    obtain ⟨h1, h2⟩ := hfind t c
    rcases ht with rfl | rfl | rfl <;>
      simp [ItemPoolRecord.ofDoc, h1, h2, ItemPoolRecord.update, ItemPoolRecord.default, hnc]
  · obtain ⟨h1, h2⟩ := hfind t c
    simp [ItemPoolRecord.ofDoc, h1, h2, ItemPoolRecord.update, ItemPoolRecord.default, hc]

/-- Witness for itemPoolRecord_update_spec: a concrete valid update succeeds
with the given fields, a negative count is rejected. -/
theorem itemPoolRecord_update_spec_witness :
    ItemPoolRecord.update ⟨"set", 1⟩ (some "remove") (some 2) true = .ok ⟨"remove", 2⟩ ∧
    ItemPoolRecord.update ⟨"set", 1⟩ (some "remove") (some (-1)) true =
      .error .negativeCount := by
  have h := itemPoolRecord_update_spec ⟨"set", 1⟩ "remove" 2 true
  have h2 := itemPoolRecord_update_spec ⟨"set", 1⟩ "remove" (-1) true
  exact ⟨h.1 (by omega) (Or.inr (Or.inl rfl)), h2.2.1 (by omega)⟩

theorem dictFind_cons {α : Type} (k0 : String) (v0 : α) (rest : List (String × α)) (k : String) :
    dictFind ((k0, v0) :: rest) k = if (k0 == k) = true then some v0 else dictFind rest k := by
  by_cases h : (k0 == k) = true
  · simp [dictFind, List.find?_cons_of_pos, h]
  · unfold dictFind
    rw [List.find?_cons_of_neg rest h, if_neg h]

theorem dictFind_map_set_self {α : Type} (d : List (String × α)) (k : String) (v : α)
    (hc : dictContains d k = true) :
    dictFind (d.map (fun p => if p.1 == k then (k, v) else p)) k = some v := by
  induction d with
  | nil => simp [dictContains] at hc
  | cons p rest ih =>
    obtain ⟨k0, v0⟩ := p
    by_cases h : (k0 == k) = true
    · simp only [List.map_cons, if_pos h]
      rw [dictFind_cons]
      simp
    · have hb : (k0 == k) = false := by simpa using h
      have hcr : dictContains rest k = true := by
        simpa [dictContains, hb] using hc
      simp only [List.map_cons, if_neg h]
      rw [dictFind_cons, if_neg h]
      exact ih hcr

theorem dictFind_append_single_self {α : Type} (d : List (String × α)) (k : String) (v : α) :
    dictFind (d ++ [(k, v)]) k = some v ∨ dictFind (d ++ [(k, v)]) k = dictFind d k := by
  induction d with
  | nil =>
    left
    simp [dictFind, List.find?]
  | cons p rest ih =>
    obtain ⟨k0, v0⟩ := p
    by_cases h : (k0 == k) = true
    · right
      rw [List.cons_append, dictFind_cons, dictFind_cons, if_pos h, if_pos h]
    · rw [List.cons_append, dictFind_cons, if_neg h, dictFind_cons (k := k), if_neg h]
      exact ih

theorem dictFind_append_single_not_contains {α : Type} (d : List (String × α)) (k : String)
    (v : α) (hc : dictContains d k = false) : dictFind (d ++ [(k, v)]) k = some v := by
  induction d with
  | nil => simp [dictFind, List.find?]
  | cons p rest ih =>
    obtain ⟨k0, v0⟩ := p
    have hc' := hc
    simp only [dictContains, List.any_cons, Bool.or_eq_false_iff] at hc'
    have hb : (k0 == k) = false := hc'.1
    have hcr : dictContains rest k = false := hc'.2
    rw [List.cons_append, dictFind_cons, if_neg (by simp [hb])]
    exact ih hcr

theorem dictFind_dictSet_self {α : Type} (d : List (String × α)) (k : String) (v : α) :
    dictFind (dictSet d k v) k = some v := by
  unfold dictSet
  by_cases hc : dictContains d k = true
  · rw [if_pos hc]
    exact dictFind_map_set_self d k v hc
  · rw [if_neg hc]
    exact dictFind_append_single_not_contains d k v (by simpa using hc)

theorem dictFind_map_set_ne {α : Type} (d : List (String × α)) (k k' : String) (v : α)
    (h : k' ≠ k) :
    dictFind (d.map (fun p => if p.1 == k then (k, v) else p)) k' = dictFind d k' := by
  induction d with
  | nil => simp
  | cons p rest ih =>
    obtain ⟨k0, v0⟩ := p
    by_cases hk : (k0 == k) = true
    · have hkk : k0 = k := beq_iff_eq.mp hk
      have h1 : (k == k') = false := beq_eq_false_iff_ne.mpr (fun hx => h hx.symm)
      have h2 : (k0 == k') = false := by rw [hkk]; exact h1
      simp only [List.map_cons, if_pos hk]
      rw [dictFind_cons, dictFind_cons, if_neg (by simp [h1]), if_neg (by simp [h2])]
      exact ih
    · simp only [List.map_cons, if_neg hk]
      rw [dictFind_cons, dictFind_cons (k := k')]
      by_cases h0 : (k0 == k') = true
      · rw [if_pos h0, if_pos h0]
      · rw [if_neg h0, if_neg h0]
        exact ih

theorem dictFind_append_single_ne {α : Type} (d : List (String × α)) (k k' : String) (v : α)
    (h : k' ≠ k) : dictFind (d ++ [(k, v)]) k' = dictFind d k' := by
  induction d with
  | nil =>
    have h1 : (k == k') = false := beq_eq_false_iff_ne.mpr (fun hx => h hx.symm)
    simp [dictFind, List.find?, h1]
  | cons p rest ih =>
    obtain ⟨k0, v0⟩ := p
    rw [List.cons_append, dictFind_cons, dictFind_cons (k := k')]
    by_cases h0 : (k0 == k') = true
    · rw [if_pos h0, if_pos h0]
    · rw [if_neg h0, if_neg h0]
      exact ih

theorem dictFind_dictSet_ne {α : Type} (d : List (String × α)) (k k' : String) (v : α)
    (h : k' ≠ k) : dictFind (dictSet d k v) k' = dictFind d k' := by
  unfold dictSet
  by_cases hc : dictContains d k = true
  · rw [if_pos hc]
    exact dictFind_map_set_ne d k k' v h
  · rw [if_neg hc]
    exact dictFind_append_single_ne d k k' v h

theorem dictFind_dictUpdate_not_mem {α : Type} (d : List (String × α))
    (ps : List (String × α)) (k : String) (h : ∀ p ∈ ps, p.1 ≠ k) :
    dictFind (dictUpdate d ps) k = dictFind d k := by
  induction ps generalizing d with
  | nil => rfl
  | cons p rest ih =>
    obtain ⟨k0, v0⟩ := p
    have h0 : k0 ≠ k := h (k0, v0) (List.mem_cons_self _ _)
    have hrest : ∀ p ∈ rest, p.1 ≠ k := fun p hp => h p (List.mem_cons_of_mem _ hp)
    simp only [dictUpdate, List.foldl_cons]
    rw [show List.foldl (fun acc p => dictSet acc p.1 p.2) (dictSet d k0 v0) rest =
          dictUpdate (dictSet d k0 v0) rest from rfl]
    rw [ih (dictSet d k0 v0) hrest]
    exact dictFind_dictSet_ne d k0 k v0 (fun hx => h0 hx.symm)

theorem dictFind_dictUpdate_mem {α : Type} (d : List (String × α)) (ps : List (String × α))
    (k : String) (v : α) (hnd : (ps.map Prod.fst).Nodup) (hmem : (k, v) ∈ ps) :
    dictFind (dictUpdate d ps) k = some v := by
  induction ps generalizing d with
  | nil => simp at hmem
  | cons p rest ih =>
    obtain ⟨k0, v0⟩ := p
    simp only [List.map_cons, List.nodup_cons] at hnd
    obtain ⟨hk0, hndr⟩ := hnd
    simp only [dictUpdate, List.foldl_cons]
    rw [show List.foldl (fun acc p => dictSet acc p.1 p.2) (dictSet d k0 v0) rest =
          dictUpdate (dictSet d k0 v0) rest from rfl]
    rcases List.mem_cons.mp hmem with heq | hr
    · injection heq with hk hv
      subst hk
      subst hv
      have hnotin : ∀ p ∈ rest, p.1 ≠ k := by
        intro p hp hx
        exact hk0 (hx ▸ List.mem_map_of_mem Prod.fst hp)
      rw [dictFind_dictUpdate_not_mem _ rest k hnotin]
      exact dictFind_dictSet_self d k v
    · exact ih (dictSet d k0 v0) hndr hr

/-- C4 counterexample: with both a per-player entry (`World 1` maps `Bow` to
2) and a global entry (`Bow` maps to 3), the starting_items property returns
the global count 3, not the per-player count 2: `data.update(...)` with the
global entries runs after (and overwrites) the per-player layer. -/
theorem starting_items_counterexample :
    dictFind (starting_items 1 0 [("World 1", SIVal.world [("Bow", 2)]), ("Bow", SIVal.cnt 3)])
        "Bow" = some (SIVal.cnt 3) ∧
    dictFind (starting_items 1 0 [("World 1", SIVal.world [("Bow", 2)]), ("Bow", SIVal.cnt 3)])
        "Bow" ≠ some (SIVal.cnt 2) := by
  constructor <;> decide

/-- C4 amended: a global starting-item entry takes precedence over a
per-player entry for the same item name (the global update runs last); the
per-player count is returned exactly when the item has no global entry. -/
theorem starting_items_layering (wc id : Nat) (si : List (String × SIVal))
    (d : List (String × Int)) (item : String) :
    (∀ cg : Int, (si.map Prod.fst).Nodup → item ∉ world_names wc →
      (item, SIVal.cnt cg) ∈ si →
      dictFind (starting_items wc id si) item = some (SIVal.cnt cg))
    ∧ (∀ cp : Int, (∀ p ∈ si, p.1 ≠ item) →
      dictFind si ((world_names wc).getD id "") = some (SIVal.world d) →
      (d.map Prod.fst).Nodup → (item, cp) ∈ d →
      dictFind (starting_items wc id si) item = some (SIVal.cnt cp)) := by
  constructor
  · intro cg hnd hnot hmem
    have hcon : (world_names wc).contains item = false := by
      rw [Bool.eq_false_iff]
      intro hx
      exact hnot (List.mem_of_elem_eq_true hx)
    have hmem' : (item, SIVal.cnt cg) ∈ si.filter (fun p => !((world_names wc).contains p.1)) := by
      rw [List.mem_filter]
      refine ⟨hmem, ?_⟩
      show (!((world_names wc).contains item)) = true
      rw [hcon]
      rfl
    have hnd' : ((si.filter (fun p => !((world_names wc).contains p.1))).map Prod.fst).Nodup :=
      hnd.sublist (List.Sublist.map Prod.fst (List.filter_sublist si))
    unfold starting_items
    exact dictFind_dictUpdate_mem _ _ item (SIVal.cnt cg) hnd' hmem'
  · intro cp hno hgw hnd hmem
    have hnotin : ∀ p ∈ si.filter (fun q => !((world_names wc).contains q.1)), p.1 ≠ item := by
      intro p hp
      exact hno p (List.mem_of_mem_filter hp)
    have hmem' : (item, SIVal.cnt cp) ∈ d.map (fun p => (p.1, SIVal.cnt p.2)) := by
      have := List.mem_map_of_mem (fun p : String × Int => (p.1, SIVal.cnt p.2)) hmem
      simpa using this
    have hnd' : ((d.map (fun p : String × Int => (p.1, SIVal.cnt p.2))).map Prod.fst).Nodup := by
      rw [List.map_map]
      exact hnd
    unfold starting_items
    simp only [hgw]
    rw [dictFind_dictUpdate_not_mem _ _ item hnotin]
    exact dictFind_dictUpdate_mem _ _ item (SIVal.cnt cp) hnd' hmem'

/-- Witness for starting_items_layering at concrete inputs: a global `Bow`
entry wins over the per-player one; with no global entry the per-player count
is returned. -/
theorem starting_items_layering_witness :
    dictFind (starting_items 1 0 [("World 1", SIVal.world [("Bow", 2)]), ("Bow", SIVal.cnt 3)])
        "Bow" = some (SIVal.cnt 3) ∧
    dictFind (starting_items 1 0 [("World 1", SIVal.world [("Bow", 2)])]) "Bow" =
      some (SIVal.cnt 2) := by
  have h1 := (starting_items_layering 1 0
    [("World 1", SIVal.world [("Bow", 2)]), ("Bow", SIVal.cnt 3)] [("Bow", 2)] "Bow").1
  have h2 := (starting_items_layering 1 0
    [("World 1", SIVal.world [("Bow", 2)])] [("Bow", 2)] "Bow").2
  refine ⟨h1 3 (by decide) (by decide) (by decide), h2 2 ?_ (by decide) (by decide) (by decide)⟩
  intro p hp
  have : p = ("World 1", SIVal.world [("Bow", 2)]) := by
    simpa using hp
  rw [this]
  decide

theorem dungeon_roundtrip (r : DungeonRecord) : DungeonRecord.ofDoc r.to_json = some r := by
  rcases r with ⟨_ | b⟩
  · decide
  · cases b <;> decide

theorem emptyDungeon_roundtrip (r : EmptyDungeonRecord) :
    EmptyDungeonRecord.ofDoc r.to_json = some r := by
  rcases r with ⟨_ | b⟩
  · decide
  · cases b <;> decide

theorem trial_roundtrip (r : TrialRecord) : TrialRecord.ofDoc r.to_json = some r := by
  rcases r with ⟨_ | b⟩
  · decide
  · cases b <;> decide

theorem song_roundtrip (r : SongRecord) : SongRecord.ofDoc r.to_json = some r := by
  rcases r with ⟨_ | v⟩ <;> rfl

theorem starter_roundtrip (r : StarterRecord) : StarterRecord.ofDoc r.to_json = some r := by
  rcases r with ⟨c⟩
  rfl

theorem itemPool_roundtrip (r : ItemPoolRecord) (hc : 0 ≤ r.count)
    (ht : r.type = "add" ∨ r.type = "remove" ∨ r.type = "set") :
    ItemPoolRecord.ofDoc r.to_json = .ok r := by
  rcases r with ⟨t, c⟩
  simp only at hc ht
  have hnc : ¬ (c < 0) := by omega
  rcases ht with rfl | rfl | rfl
  · by_cases h1 : c = 1
    · subst h1
      rfl
    · have hne : (c != 1) = true := by simpa using h1
      simp only [ItemPoolRecord.to_json]
      rw [if_neg (by decide), if_pos (by decide), if_pos hne]
      simp only [ItemPoolRecord.ofDoc, List.singleton_append]
      rw [show dictFind [("type", JVal.s "add"), ("count", JVal.n c)] "type" =
            some (JVal.s "add") from rfl,
          show dictFind [("type", JVal.s "add"), ("count", JVal.n c)] "count" =
            some (JVal.n c) from rfl]
      simp only [ItemPoolRecord.update, ItemPoolRecord.default]
      rw [if_neg hnc, if_neg (by decide)]
  · by_cases h1 : c = 1
    · subst h1
      rfl
    · have hne : (c != 1) = true := by simpa using h1
      simp only [ItemPoolRecord.to_json]
      rw [if_neg (by decide), if_pos (by decide), if_pos hne]
      simp only [ItemPoolRecord.ofDoc, List.singleton_append]
      rw [show dictFind [("type", JVal.s "remove"), ("count", JVal.n c)] "type" =
            some (JVal.s "remove") from rfl,
          show dictFind [("type", JVal.s "remove"), ("count", JVal.n c)] "count" =
            some (JVal.n c) from rfl]
      simp only [ItemPoolRecord.update, ItemPoolRecord.default]
      rw [if_neg hnc, if_neg (by decide)]
  · simp only [ItemPoolRecord.to_json]
    rw [if_pos (by decide)]
    simp only [ItemPoolRecord.ofDoc, ItemPoolRecord.update, ItemPoolRecord.default]
    rw [if_neg hnc, if_neg (by decide)]
    rfl

theorem location_roundtrip (r : LocationRecord)
    (hx : (∀ l, r.item ≠ some (Sum.inr l)) ∨ r.player ≠ none ∨ r.price ≠ none ∨
      r.model ≠ none) :
    LocationRecord.ofDoc r.to_json = some r := by
  rcases r with ⟨it, pl, pr, md⟩
  rcases it with _ | v
  · rcases pl with _ | p <;> rcases pr with _ | q <;> rcases md with _ | m <;> rfl
  · rcases v with v | l
    · rcases pl with _ | p <;> rcases pr with _ | q <;> rcases md with _ | m <;> rfl
    · rcases pl with _ | p <;> rcases pr with _ | q <;> rcases md with _ | m <;>
        first
          | rfl
          | (exfalso
             rcases hx with h | h | h | h
             · exact h l rfl
             all_goals simp at h)

theorem entrance_roundtrip (r : EntranceRecord) (j : JVal) (h : r.to_json = .ok j) :
    EntranceRecord.ofDoc j = some r := by
  rcases r with ⟨_ | rg, _ | og⟩
  · exact Except.noConfusion h
  · cases Except.ok.inj h
    rfl
  · cases Except.ok.inj h
    rfl
  · cases Except.ok.inj h
    rfl

theorem gossip_roundtrip (r : GossipRecord) : GossipRecord.ofDoc r.to_json = some r := by
  rcases r with ⟨_ | t, _ | c, _ | h1, _ | h2⟩ <;> rfl

/-- C8 counterexample: a LocationRecord whose only non-default field is a
list-valued item does not round-trip: `to_json` collapses the record to
`str(self.item)`, turning the candidate list into its Python string
rendering, which loads back as a single literal name.  And the all-default
EntranceRecord has no serialization at all: its to_json raises
`KeyError('origin')` instead of emitting an empty representation. -/
theorem record_roundtrip_counterexample :
    (LocationRecord.ofDoc
        (LocationRecord.to_json ⟨some (Sum.inr ["Kokiri Sword", "Bow"]), none, none, none⟩) ≠
      some ⟨some (Sum.inr ["Kokiri Sword", "Bow"]), none, none, none⟩) ∧
    (∀ j : JVal, EntranceRecord.to_json ⟨none, none⟩ ≠ .ok j) := by
  exact ⟨by decide, fun j h => Except.noConfusion h⟩

/-- C8 (amended): every embedded Record type round-trips through its document
form — DungeonRecord, EmptyDungeonRecord, TrialRecord, SongRecord,
StarterRecord, GossipRecord unconditionally, ItemPoolRecord for valid
records, EntranceRecord whenever its to_json produces a document, and
LocationRecord except when its only non-default field is a list-valued item
(that case collapses to `str(list)` and is lost); records at their default
values serialize with no keys — the scalar-shaped ones to their scalar
sentinel (`random`, `null`, `1`) and LocationRecord/GossipRecord to an empty
dict — except EntranceRecord, whose to_json raises `KeyError('origin')` on
the all-default record instead of producing anything. -/
theorem record_roundtrip_spec :
    (∀ r : DungeonRecord, DungeonRecord.ofDoc r.to_json = some r)
    ∧ (∀ r : EmptyDungeonRecord, EmptyDungeonRecord.ofDoc r.to_json = some r)
    ∧ (∀ r : TrialRecord, TrialRecord.ofDoc r.to_json = some r)
    ∧ (∀ r : SongRecord, SongRecord.ofDoc r.to_json = some r)
    ∧ (∀ r : StarterRecord, StarterRecord.ofDoc r.to_json = some r)
    ∧ (∀ r : ItemPoolRecord, 0 ≤ r.count →
        (r.type = "add" ∨ r.type = "remove" ∨ r.type = "set") →
        ItemPoolRecord.ofDoc r.to_json = .ok r)
    ∧ (∀ r : LocationRecord,
        ((∀ l, r.item ≠ some (Sum.inr l)) ∨ r.player ≠ none ∨ r.price ≠ none ∨
          r.model ≠ none) →
        LocationRecord.ofDoc r.to_json = some r)
    ∧ (∀ r : EntranceRecord, ∀ j : JVal, r.to_json = .ok j →
        EntranceRecord.ofDoc j = some r)
    ∧ (∀ r : GossipRecord, GossipRecord.ofDoc r.to_json = some r)
    ∧ DungeonRecord.to_json ⟨none⟩ = .s "random"
    ∧ EmptyDungeonRecord.to_json ⟨none⟩ = .null
    ∧ TrialRecord.to_json ⟨none⟩ = .s "random"
    ∧ SongRecord.to_json ⟨none⟩ = .null
    ∧ StarterRecord.to_json ⟨1⟩ = .n 1
    ∧ ItemPoolRecord.to_json ⟨"set", 1⟩ = .n 1
    ∧ LocationRecord.to_json ⟨none, none, none, none⟩ = .dict []
    ∧ EntranceRecord.to_json ⟨none, none⟩ = .error (.dictKeyError "origin")
    ∧ GossipRecord.to_json ⟨none, none, none, none⟩ = .dict [] :=
  ⟨dungeon_roundtrip, emptyDungeon_roundtrip, trial_roundtrip, song_roundtrip,
   starter_roundtrip, fun r hc ht => itemPool_roundtrip r hc ht,
   fun r hx => location_roundtrip r hx, fun r j hj => entrance_roundtrip r j hj,
   gossip_roundtrip, rfl, rfl, rfl, rfl, rfl, rfl, rfl, rfl, rfl⟩

/-- Witness for record_roundtrip_spec: the hypothesis-bearing conjuncts
applied at concrete records. -/
theorem record_roundtrip_spec_witness :
    ItemPoolRecord.ofDoc (ItemPoolRecord.to_json ⟨"add", 2⟩) = .ok ⟨"add", 2⟩ ∧
    LocationRecord.ofDoc (LocationRecord.to_json ⟨some (Sum.inl "Bow"), some 2, none, none⟩) =
      some ⟨some (Sum.inl "Bow"), some 2, none, none⟩ ∧
    EntranceRecord.ofDoc (.dict [("region", JVal.s "Kokiri Forest"), ("from", JVal.s "ZR")]) =
      some ⟨some "Kokiri Forest", some "ZR"⟩ := by
  have h := record_roundtrip_spec
  exact ⟨h.2.2.2.2.2.1 ⟨"add", 2⟩ (by norm_num) (Or.inl rfl),
         h.2.2.2.2.2.2.1 ⟨some (Sum.inl "Bow"), some 2, none, none⟩ (by simp),
         h.2.2.2.2.2.2.2.1 ⟨some "Kokiri Forest", some "ZR"⟩
           (.dict [("region", JVal.s "Kokiri Forest"), ("from", JVal.s "ZR")]) rfl⟩

theorem pyGetElem_mem {α : Type} {l : List α} {i : Int} {x : α} (h : pyGetElem l i = some x) :
    x ∈ l := by
  unfold pyGetElem at h
  split_ifs at h
  · exact List.getElem?_mem (by simpa [List.get?_eq_getElem?] using h)
  · exact List.getElem?_mem (by simpa [List.get?_eq_getElem?] using h)

theorem dictContains_eq_isSome {α : Type} (d : List (String × α)) (k : String) :
    dictContains d k = (dictFind d k).isSome := by
  induction d with
  | nil => rfl
  | cons p rest ih =>
    obtain ⟨k0, v0⟩ := p
    rw [dictFind_cons]
    by_cases h : (k0 == k) = true
    · simp [dictContains, h]
    · have hb : (k0 == k) = false := by simpa using h
      simp only [dictContains, List.any_cons, hb, Bool.false_or, if_neg h]
      exact ih

theorem dictContains_dictSet_ne {α : Type} (d : List (String × α)) (k k' : String) (v : α)
    (h : k' ≠ k) : dictContains (dictSet d k v) k' = dictContains d k' := by
  rw [dictContains_eq_isSome, dictContains_eq_isSome, dictFind_dictSet_ne d k k' v h]

theorem ammoLoop_preserve {a nm : String} :
    ∀ (lst : List (String × List Int)) (si d : List (String × Int)),
    a ∉ lst.map Prod.fst → ammoLoop nm lst si = some d → dictFind d a = dictFind si a := by
  intro lst
  induction lst with
  | nil =>
    intro si d _ h
    cases h
    rfl
  | cons p rest ih =>
    intro si d hnot h
    obtain ⟨b, qty⟩ := p
    simp only [List.map_cons, List.mem_cons] at hnot
    push_neg at hnot
    obtain ⟨hab, hrest⟩ := hnot
    simp only [ammoLoop] at h
    rcases hg : pyGetElem qty ((dictFind (if dictContains si b then si
        else dictSet si b 0) nm).getD 0 - 1) with _ | v
    · rw [hg] at h; cases h
    · rw [hg] at h
      rw [ih _ d hrest h]
      rw [dictFind_dictSet_ne _ b a _ hab]
      by_cases hc : dictContains si b = true
      · rw [if_pos hc]
      · rw [if_neg hc, dictFind_dictSet_ne _ b a _ hab]

theorem ammoLoop_writes {nm : String} :
    ∀ (lst : List (String × List Int)) (si d : List (String × Int)),
    (lst.map Prod.fst).Nodup → ammoLoop nm lst si = some d →
    ∀ p ∈ lst, ∃ v, v ∈ p.2 ∧ dictFind d p.1 = some v := by
  intro lst
  induction lst with
  | nil =>
    intro si d _ _ p hp
    simp at hp
  | cons q rest ih =>
    intro si d hnd h p hp
    obtain ⟨b, qty⟩ := q
    simp only [List.map_cons, List.nodup_cons] at hnd
    obtain ⟨hb, hndr⟩ := hnd
    simp only [ammoLoop] at h
    rcases hg : pyGetElem qty ((dictFind (if dictContains si b then si
        else dictSet si b 0) nm).getD 0 - 1) with _ | v
    · rw [hg] at h; cases h
    · rw [hg] at h
      rcases List.mem_cons.mp hp with rfl | hpr
      · refine ⟨v, pyGetElem_mem hg, ?_⟩
        rw [ammoLoop_preserve rest _ d hb h]
        exact dictFind_dictSet_self _ b v
      · exact ih _ d hndr h p hpr

theorem addAmmoLoop_preserve {a nm : String} :
    ∀ (lst : List (String × List Int)) (si d : List (String × Int)),
    a ∉ lst.map Prod.fst → addAmmoLoop nm lst si = some d → dictFind d a = dictFind si a := by
  intro lst
  induction lst with
  | nil =>
    intro si d _ h
    cases h
    rfl
  | cons p rest ih =>
    intro si d hnot h
    obtain ⟨b, qty⟩ := p
    simp only [List.map_cons, List.mem_cons] at hnot
    push_neg at hnot
    obtain ⟨hab, hrest⟩ := hnot
    simp only [addAmmoLoop] at h
    by_cases hc : dictContains si b = true
    · rw [if_pos hc] at h
      exact ih _ d hrest h
    · rw [if_neg hc] at h
      rcases hg : pyGetElem qty ((dictFind si nm).getD 0 - 1) with _ | v
      · rw [hg] at h; cases h
      · rw [hg] at h
        rw [ih _ d hrest h]
        rw [dictFind_dictSet_ne _ b a _ hab, dictFind_dictSet_ne _ b a _ hab]

theorem addAmmoLoop_writes {nm : String} :
    ∀ (lst : List (String × List Int)) (si d : List (String × Int)),
    (lst.map Prod.fst).Nodup → (∀ p ∈ lst, dictContains si p.1 = false) →
    addAmmoLoop nm lst si = some d →
    ∀ p ∈ lst, ∃ v, v ∈ p.2 ∧ dictFind d p.1 = some v := by
  intro lst
  induction lst with
  | nil =>
    intro si d _ _ _ p hp
    simp at hp
  | cons q rest ih =>
    intro si d hnd habs h p hp
    obtain ⟨b, qty⟩ := q
    simp only [List.map_cons, List.nodup_cons] at hnd
    obtain ⟨hb, hndr⟩ := hnd
    have hcb : dictContains si b = false := habs (b, qty) (List.mem_cons_self _ _)
    simp only [addAmmoLoop] at h
    rw [if_neg (by simp [hcb])] at h
    rcases hg : pyGetElem qty ((dictFind si nm).getD 0 - 1) with _ | v
    · rw [hg] at h; cases h
    · rw [hg] at h
      have habs' : ∀ p ∈ rest, dictContains (dictSet (dictSet si b 0) b v) p.1 = false := by
        intro p hpr
        have hne : p.1 ≠ b := by
          intro hx
          exact hb (hx ▸ List.mem_map_of_mem Prod.fst hpr)
        rw [dictContains_dictSet_ne _ b p.1 v hne, dictContains_dictSet_ne _ b p.1 0 hne]
        exact habs p (List.mem_cons_of_mem _ hpr)
      rcases List.mem_cons.mp hp with rfl | hpr
      · refine ⟨v, pyGetElem_mem hg, ?_⟩
        rw [addAmmoLoop_preserve rest _ d hb h]
        exact dictFind_dictSet_self _ b v
      · exact ih _ d hndr habs' h p hpr

/-- C6 counterexample: with the curve `[30, 40, 50]` for `Arrows`, requesting
4 Bows makes `add_starting_item_with_ammo` index `qty[3]`, an `IndexError`
(`none`), instead of clamping to the last entry; requesting 3 stays in range
and writes the last entry 50. -/
theorem ammo_clamp_counterexample :
    add_starting_item_with_ammo [⟨"Bow", [("Arrows", [30, 40, 50])]⟩] [] "Bow" 4 = none ∧
    add_starting_item_with_ammo [⟨"Bow", [("Arrows", [30, 40, 50])]⟩] [] "Bow" 3 =
      some [("Bow", 3), ("Arrows", 50)] := by
  constructor <;> decide

/-- C6 (amended): the ammo-expansion helpers are not total: the curve is
indexed by `qty[count - 1]` with no clamping, so any equipment count beyond
the curve length raises an IndexError (`none`).  Whenever they do complete,
every ammo count written is an element of its curve, hence never exceeds the
curve's maximum entry. -/
theorem ammo_expansion_spec (inventory : List InvEntry) (si : List (String × Int))
    (item_name : String) (count : Int) (it : InvEntry) (d : List (String × Int)) :
    (inventory.find? (fun it => it.item_name == item_name && !it.ammo.isEmpty) = some it →
      (it.ammo.map Prod.fst).Nodup →
      add_starting_item_with_ammo inventory si item_name count = some d →
      ∀ p ∈ it.ammo, ∃ v, v ∈ p.2 ∧ dictFind d p.1 = some v ∧
        (v : WithBot Int) ≤ p.2.maximum)
    ∧ ((it.ammo.map Prod.fst).Nodup → (∀ p ∈ it.ammo, dictContains si p.1 = false) →
      dictContains si it.item_name = true →
      add_starting_ammo [it] si = some d →
      ∀ p ∈ it.ammo, ∃ v, v ∈ p.2 ∧ dictFind d p.1 = some v ∧
        (v : WithBot Int) ≤ p.2.maximum) := by
  constructor
  · intro hfind hnd hok p hp
    simp only [add_starting_item_with_ammo, hfind] at hok
    obtain ⟨v, hv, hfd⟩ := ammoLoop_writes it.ammo _ d hnd hok p hp
    exact ⟨v, hv, hfd, List.le_maximum_of_mem' hv⟩
  · intro hnd habs hin hok p hp
    rcases hame : it.ammo.isEmpty with _ | _
    · simp only [add_starting_ammo, hin, hame, Bool.not_false, Bool.and_self, if_true] at hok
      rcases hloop : addAmmoLoop it.item_name it.ammo si with _ | si2
      · rw [hloop] at hok; cases hok
      · rw [hloop] at hok
        have hd : si2 = d := by simpa [add_starting_ammo] using hok
        subst hd
        obtain ⟨v, hv, hfd⟩ := addAmmoLoop_writes it.ammo _ si2 hnd habs hloop p hp
        exact ⟨v, hv, hfd, List.le_maximum_of_mem' hv⟩
    · rw [List.isEmpty_iff] at hame
      rw [hame] at hp
      simp at hp

/-- Witness for ammo_expansion_spec at concrete inputs: starting with 2 Bows
writes the curve entry 40 for Arrows (in range, an element of the curve). -/
theorem ammo_expansion_spec_witness :
    dictFind [(("Bow" : String), (2 : Int)), ("Arrows", 40)] "Arrows" = some (40 : Int) ∧
      (40 : Int) ∈ ([30, 40, 50] : List Int) := by
  have h := (ammo_expansion_spec [⟨"Bow", [("Arrows", [30, 40, 50])]⟩] [] "Bow" 2
    ⟨"Bow", [("Arrows", [30, 40, 50])]⟩ [("Bow", 2), ("Arrows", 40)]).1
    (by decide) (by decide) (by decide) ("Arrows", [30, 40, 50]) (by decide)
  obtain ⟨v, hv, hfd, -⟩ := h
  have hv40 : v = 40 := by
    have : dictFind [(("Bow" : String), (2 : Int)), ("Arrows", 40)] "Arrows" = some 40 := by decide
    rw [this] at hfd
    exact (Option.some.inj hfd).symm
  subst hv40
  exact ⟨hfd, hv⟩

theorem setEntLoopPools_not_found {σ : Type} (connect : σ → Entrance → Entrance → Except String σ)
    (confirm : σ → Entrance → Entrance → σ) (idW : Int) (name target_region : String)
    (origin : Option String) (tps : List (String × List Entrance)) :
    ∀ (pools : List (String × List Entrance)) (st : σ) (found : Bool),
    (∀ p ∈ pools, ∀ e ∈ p.2, e.name ≠ name) →
    setEntLoopPools connect confirm idW name target_region origin tps pools st found =
      .ok (st, found) := by
  intro pools
  induction pools with
  | nil => intro st found _; rfl
  | cons p rest ih =>
    intro st found hno
    obtain ⟨pt, pool⟩ := p
    have hfind : pool.find? (fun e => e.name == name) = none := by
      rw [List.find?_eq_none]
      intro e he
      simpa using hno (pt, pool) (List.mem_cons_self _ _) e he
    simp only [setEntLoopPools, hfind]
    exact ih st found (fun q hq => hno q (List.mem_cons_of_mem _ hq))

/-- C7: in set_shuffled_entrances, an entrance name that does not exist
raises the unknown-entrance error; a name that exists but occurs in no
shuffled-entrance pool raises the distinct not-in-a-shuffled-pool error; an
entrance that is already connected is silently tolerated exactly when its
type is Overworld, and raises the already-shuffled error for every other
type. -/
theorem set_shuffled_entrances_spec {σ : Type} (known_entrance : String → Bool)
    (connect : σ → Entrance → Entrance → Except String σ)
    (confirm : σ → Entrance → Entrance → σ) (id : Nat)
    (entrance_pools target_entrance_pools : List (String × List Entrance))
    (name : String) (record : EntranceRecord) (st : σ) (r : String) :
    (record.region = some r → known_entrance name = false →
      set_shuffled_entrances known_entrance connect confirm id entrance_pools
        target_entrance_pools [(name, record)] st =
        .error (.unknownEntrance ((id : Int) + 1) name))
    ∧ (record.region = some r → known_entrance name = true →
      (∀ p ∈ entrance_pools, ∀ e ∈ p.2, e.name ≠ name) →
      set_shuffled_entrances known_entrance connect confirm id entrance_pools
        target_entrance_pools [(name, record)] st =
        .error (.notShuffledPool ((id : Int) + 1) name))
    ∧ (∀ i n, PErr.unknownEntrance i n ≠ PErr.notShuffledPool i n)
    ∧ (∀ pt pool m, record.region = some r → known_entrance name = true →
        pool.find? (fun e => e.name == name) = some m →
        m.connected_region.isSome = true →
        ((m.type = "Overworld" →
          set_shuffled_entrances known_entrance connect confirm id [(pt, pool)]
            target_entrance_pools [(name, record)] st = .ok st)
        ∧ (m.type ≠ "Overworld" →
          set_shuffled_entrances known_entrance connect confirm id [(pt, pool)]
            target_entrance_pools [(name, record)] st =
            .error (.entranceAlreadyShuffled ((id : Int) + 1) name)))) := by
  refine ⟨fun hr hk => ?_, fun hr hk hno => ?_, fun i n => by simp, fun pt pool m hr hk hf hc => ⟨fun ht => ?_, fun ht => ?_⟩⟩
  · simp only [set_shuffled_entrances, hr, hk]
    rfl
  · simp only [set_shuffled_entrances, hr, hk]
    rw [setEntLoopPools_not_found connect confirm _ name r record.origin
      target_entrance_pools entrance_pools st false hno]
    rfl
  · have htb : (m.type == "Overworld") = true := by simpa using ht
    simp only [set_shuffled_entrances, hr, hk, setEntLoopPools, hf, hc, if_true, htb]
    rfl
  · have htb : (m.type == "Overworld") = false := by simpa using ht
    simp only [set_shuffled_entrances, hr, hk, setEntLoopPools, hf, hc, if_true, htb]
    rfl

/-- Witness for set_shuffled_entrances_spec at concrete inputs: an unknown
entrance errors; an already-connected Overworld entrance is tolerated
silently. -/
theorem set_shuffled_entrances_spec_witness :
    set_shuffled_entrances (fun _ => false) (fun (s : Unit) _ _ => .ok s) (fun s _ _ => s) 0
        [] [] [("KF Outside Deku Tree", ⟨some "Deku Tree", none⟩)] () =
      .error (.unknownEntrance 1 "KF Outside Deku Tree") ∧
    set_shuffled_entrances (fun _ => true) (fun (s : Unit) _ _ => .ok s) (fun s _ _ => s) 0
        [("Overworld", [⟨"KF Outside Deku Tree", "Overworld", some "Kokiri Forest", "P", "Q", 0⟩])]
        [] [("KF Outside Deku Tree", ⟨some "Deku Tree", none⟩)] () = .ok () := by
  have h1 := (set_shuffled_entrances_spec (fun _ => false) (fun (s : Unit) _ _ => .ok s)
    (fun s _ _ => s) 0 [] [] "KF Outside Deku Tree" ⟨some "Deku Tree", none⟩ ()
    "Deku Tree").1 rfl rfl
  have h4 := ((set_shuffled_entrances_spec (fun _ => true) (fun (s : Unit) _ _ => .ok s)
    (fun s _ _ => s) 0
    [("Overworld", [⟨"KF Outside Deku Tree", "Overworld", some "Kokiri Forest", "P", "Q", 0⟩])]
    [] "KF Outside Deku Tree" ⟨some "Deku Tree", none⟩ () "Deku Tree").2.2.2 "Overworld"
    [⟨"KF Outside Deku Tree", "Overworld", some "Kokiri Forest", "P", "Q", 0⟩]
    ⟨"KF Outside Deku Tree", "Overworld", some "Kokiri Forest", "P", "Q", 0⟩
    rfl rfl (by decide) (by decide)).1 rfl
  exact ⟨h1, h4⟩

theorem pyChoices_length {α : Type} (c : α) (cs : List α) :
    ∀ (n : Nat) (rng : List Nat), (pyChoices c cs n rng).1.length = n := by
  intro n
  induction n with
  | zero => intro rng; rfl
  | succ n ih =>
    intro rng
    simp only [pyChoices]
    simp [ih]

theorem pull_some_sum {α : Type} [DecidableEq α] {pools : List (List α)} {pred : α → Bool}
    {rng : List Nat} {e : α}
    (h : (pull_random_element pools pred true rng).1 = some e) :
    ((pull_random_element pools pred true rng).2.1.map List.length).sum + 1 =
      (pools.map List.length).sum ∧
    (pull_random_element pools pred true rng).2.1.length = pools.length := by
  obtain ⟨j, pool, hget, hmem, -, hset⟩ := pull_some_remove h
  constructor
  · rw [hset]
    exact sum_lengths_set_erase hget hmem
  · rw [hset]
    simp

theorem pull_none_state {α : Type} [DecidableEq α] {pools : List (List α)} {pred : α → Bool}
    {remove : Bool} {rng : List Nat}
    (h : (pull_random_element pools pred remove rng).1 = none) :
    pull_random_element pools pred remove rng = (none, pools, rng) := by
  unfold pull_random_element at h ⊢
  rcases hc : prCandidates pred 0 pools with _ | ⟨c, cs⟩
  · simp only [hc]
  · rw [hc] at h
    cases remove <;> simp at h

theorem andThenE_ok {x : AlterSt × Option PErr} {f : AlterSt → AlterSt × Except PErr (List String)}
    {st : AlterSt} {out : List String} (h : andThenE x f = (st, .ok out)) :
    ∃ st0, x = (st0, none) ∧ f st0 = (st, .ok out) := by
  obtain ⟨st0, o⟩ := x
  cases o with
  | none => exact ⟨st0, rfl, h⟩
  | some e =>
    exfalso
    have := congrArg Prod.snd h
    simp [andThenE] at this

theorem pool_remove_full_ok {α : Type} [DecidableEq α] (toName : α → String)
    (worldOf : α → Int) (is_item : String → Bool) (matcher : String → Bool)
    (item_name : String) (world_id : Option Int) :
    ∀ (n : Nat) (st : RemovalSt α) (l : List α),
    (pool_remove_full toName worldOf is_item matcher item_name world_id n st).2 = .ok l →
    l.length = n ∧
    ((pool_remove_full toName worldOf is_item matcher item_name world_id n st).1.pools.map
      List.length).sum + n = (st.pools.map List.length).sum ∧
    (pool_remove_full toName worldOf is_item matcher item_name world_id n st).1.pools.length =
      st.pools.length := by
  intro n
  induction n with
  | zero =>
    intro st l h
    simp only [pool_remove_full] at h ⊢
    cases h
    simp
  | succ n ih =>
    intro st l h
    rcases hpull : pull_random_element st.pools
        (removePred toName worldOf matcher world_id false st.base_pool) true st.rng
      with ⟨o, ps, rg⟩
    simp only [pool_remove_full, hpull] at h ⊢
    cases o with
    | none => simp [poolRemoveFullStep] at h
    | some e =>
      simp only [poolRemoveFullStep] at h ⊢
      rcases hr : (pool_remove_full toName worldOf is_item matcher item_name world_id n
          ⟨ps, st.base_pool, rg⟩).2 with e2 | l2
      · rw [hr] at h
        simp [Except.map] at h
      · rw [hr] at h
        simp only [Except.map] at h
        cases h
        obtain ⟨hl, hsum, hlen⟩ := ih ⟨ps, st.base_pool, rg⟩ l2 hr
        have h1 : (pull_random_element st.pools
            (removePred toName worldOf matcher world_id false st.base_pool) true st.rng).1 =
            some e := by rw [hpull]
        have hone := pull_some_sum h1
        rw [hpull] at hone
        simp only at hone
        obtain ⟨hone1, hone2⟩ := hone
        refine ⟨by simp [hl], ?_, ?_⟩
        · simp only at hsum ⊢
          omega
        · simp only at hlen ⊢
          omega

theorem pool_remove_base_ok {α : Type} [DecidableEq α] (toName : α → String)
    (worldOf : α → Int) (is_item : String → Bool) (matcher : String → Bool)
    (item_name : String) (world_id : Option Int) :
    ∀ (n : Nat) (st : RemovalSt α) (l : List α),
    (pool_remove_base toName worldOf is_item matcher item_name world_id n st).2 = .ok l →
    l.length = n ∧
    ((pool_remove_base toName worldOf is_item matcher item_name world_id n st).1.pools.map
      List.length).sum + n = (st.pools.map List.length).sum ∧
    (pool_remove_base toName worldOf is_item matcher item_name world_id n st).1.pools.length =
      st.pools.length := by
  intro n
  induction n with
  | zero =>
    intro st l h
    simp only [pool_remove_base] at h ⊢
    cases h
    simp
  | succ n ih =>
    intro st l h
    rcases hpull : pull_random_element st.pools
        (removePred toName worldOf matcher world_id true st.base_pool) true st.rng
      with ⟨o, ps, rg⟩
    simp only [pool_remove_base, hpull] at h ⊢
    cases o with
    | none =>
      have hstate := @pull_none_state _ _ st.pools
        (removePred toName worldOf matcher world_id true st.base_pool)
        true st.rng (by rw [hpull])
      rw [hpull] at hstate
      injection hstate with h1 h2
      injection h2 with h2 h3
      subst h2
      subst h3
      simp only [poolRemoveBaseStep] at h ⊢
      exact pool_remove_full_ok toName worldOf is_item matcher item_name world_id (n+1)
        ⟨st.pools, st.base_pool, st.rng⟩ l h
    | some e =>
      rcases hbp : pyListRemove st.base_pool (toName e) with _ | bp2
      · simp only [poolRemoveBaseStep, hbp] at h
        simp at h
      · simp only [poolRemoveBaseStep, hbp] at h ⊢
        rcases hr : (pool_remove_base toName worldOf is_item matcher item_name world_id n
            ⟨ps, bp2, rg⟩).2 with e2 | l2
        · rw [hr] at h
          simp [Except.map] at h
        · rw [hr] at h
          simp only [Except.map] at h
          cases h
          obtain ⟨hl, hsum, hlen⟩ := ih ⟨ps, bp2, rg⟩ l2 hr
          have h1 : (pull_random_element st.pools
              (removePred toName worldOf matcher world_id true st.base_pool) true st.rng).1 =
              some e := by rw [hpull]
          have hone := pull_some_sum h1
          rw [hpull] at hone
          simp only at hone
          obtain ⟨hone1, hone2⟩ := hone
          refine ⟨by simp [hl], ?_, ?_⟩
          · simp only at hsum ⊢
            omega
          · simp only at hlen ⊢
            omega

theorem pool_remove_item_ok {α : Type} [DecidableEq α] (toName : α → String)
    (worldOf : α → Int) (is_item : String → Bool) (groups : String → List String)
    (item_name : String) (world_id : Option Int) (use_base : Bool) (count : Nat)
    (st : RemovalSt α) (l : List α)
    (h : (pool_remove_item toName worldOf is_item groups item_name world_id use_base count
      st).2 = .ok l) :
    l.length = count ∧
    ((pool_remove_item toName worldOf is_item groups item_name world_id use_base count
      st).1.pools.map List.length).sum + count = (st.pools.map List.length).sum ∧
    (pool_remove_item toName worldOf is_item groups item_name world_id use_base count
      st).1.pools.length = st.pools.length := by
  unfold pool_remove_item at h ⊢
  cases use_base with
  | true =>
    rw [if_pos rfl] at h ⊢
    exact pool_remove_base_ok toName worldOf is_item _ item_name world_id count st l h
  | false =>
    rw [if_neg (by simp)] at h ⊢
    exact pool_remove_full_ok toName worldOf is_item _ item_name world_id count st l h

theorem pool_add_item_ok (env : PoolEnv) (item_pool : List (String × ItemPoolRecord))
    (pool : List String) (item_name : String) (count : Nat) (rng : List Nat)
    (added pool2 : List String) (rng2 : List Nat)
    (hjunk : ∀ n p ip, (env.get_junk_item n p ip).length = n)
    (h : pool_add_item env item_pool pool item_name count rng = .ok (added, pool2, rng2)) :
    pool2.length = pool.length + count := by
  unfold pool_add_item at h
  by_cases h1 : (item_name == "#Junk") = true
  · rw [if_pos h1] at h
    injection h with h
    injection h with ha h
    injection h with hp hr
    rw [← hp]
    simp [hjunk]
  · rw [if_neg h1] at h
    by_cases h2 : is_pattern item_name = true
    · rw [if_pos h2] at h
      replace h : (match (env.all_item_names.filter
            (fun nm => pattern_matcher1 env.groups item_name nm &&
              (match dictFind item_pool nm with
               | none => true
               | some r => r.count != 0))) with
          | [] => Except.error (PErr.unknownItemAddPattern item_name)
          | c :: cs => Except.ok ((pyChoices c cs count rng).1,
              pool ++ (pyChoices c cs count rng).1, (pyChoices c cs count rng).2)) =
          Except.ok (added, pool2, rng2) := h
      split at h
      · cases h
      · injection h with h
        injection h with ha h
        injection h with hp hr
        rw [← hp]
        simp [pyChoices_length]
    · rw [if_neg h2] at h
      by_cases h3 : env.is_item item_name = true
      · rw [if_pos h3] at h
        injection h with h
        injection h with ha h
        injection h with hp hr
        rw [← hp]
        simp
      · rw [if_neg h3] at h
        cases h

theorem alterRemove_ok (env : PoolEnv) (nm : String) (cnt : Nat) (st st2 : AlterSt)
    (l : List String) (h : alterRemove env nm cnt st = (st2, .ok l)) :
    st2.pool.length + cnt = st.pool.length ∧ st2.item_pool = st.item_pool := by
  unfold alterRemove at h
  have h2 : (pool_remove_item (fun s => s) (fun _ => 0) env.is_item env.groups nm none true cnt
      ⟨[st.pool], st.base_pool, st.rng⟩).2 = .ok l := congrArg Prod.snd h
  have hpool : st2.pool = (pool_remove_item (fun s => s) (fun _ => 0) env.is_item env.groups nm
      none true cnt ⟨[st.pool], st.base_pool, st.rng⟩).1.pools.headD [] :=
    (congrArg (fun p => Prod.fst p |>.pool) h).symm
  have hip : st2.item_pool = st.item_pool :=
    (congrArg (fun p => Prod.fst p |>.item_pool) h).symm
  obtain ⟨-, hsum, hlen⟩ := pool_remove_item_ok (fun s => s) (fun _ => 0) env.is_item env.groups
    nm none true cnt ⟨[st.pool], st.base_pool, st.rng⟩ l h2
  simp only at hsum hlen
  rcases List.length_eq_one.mp (by rw [hlen]; rfl) with ⟨p2, hp2⟩
  refine ⟨?_, hip⟩
  rw [hp2] at hpool hsum
  rw [hpool]
  simp only [List.headD_cons]
  simpa using hsum

theorem alterAdd_ok (env : PoolEnv) (nm : String) (cnt : Nat) (st st2 : AlterSt)
    (l : List String)
    (hjunk : ∀ n p ip, (env.get_junk_item n p ip).length = n)
    (h : alterAdd env nm cnt st = (st2, .ok l)) :
    st2.pool.length = st.pool.length + cnt ∧ st2.item_pool = st.item_pool := by
  rcases hp : pool_add_item env st.item_pool st.pool nm cnt st.rng with e | ⟨added, pool2, rng2⟩
  · simp only [alterAdd, hp] at h
    exact absurd (congrArg Prod.snd h) (by simp)
  · simp only [alterAdd, hp] at h
    injection h with h1 h2
    rw [← h1]
    exact ⟨pool_add_item_ok env st.item_pool st.pool nm cnt st.rng added pool2 rng2 hjunk hp,
           rfl⟩

theorem alterJunk_ok (env : PoolEnv) (pool_size : Nat) (st st2 : AlterSt) (out : List String)
    (hjunk : ∀ n p ip, (env.get_junk_item n p ip).length = n)
    (h : alterJunk env pool_size st = (st2, .ok out)) :
    out.length = pool_size ∧ out = st2.pool := by
  unfold alterJunk at h
  by_cases hj : ((pool_size : Int) - st.pool.length) > 0
  · rw [if_pos hj] at h
    rcases ha : alterAdd env "#Junk" ((pool_size : Int) - st.pool.length).toNat st
      with ⟨sta, ra⟩
    simp only [ha] at h
    rcases ra with e | la
    · exact absurd (congrArg Prod.snd h) (by simp)
    · injection h with hst hout
      injection hout with hout
      obtain ⟨hlen, -⟩ := alterAdd_ok env "#Junk" ((pool_size : Int) - st.pool.length).toNat
        st sta la hjunk ha
      subst hst
      subst hout
      exact ⟨by omega, rfl⟩
  · rw [if_neg hj] at h
    rcases ha : alterRemove env "#Junk" (-((pool_size : Int) - st.pool.length)).toNat st
      with ⟨sta, ra⟩
    simp only [ha] at h
    rcases ra with e | la
    · exact absurd (congrArg Prod.snd h) (by simp)
    · injection h with hst hout
      injection hout with hout
      obtain ⟨hlen, -⟩ := alterRemove_ok env "#Junk"
        (-((pool_size : Int) - st.pool.length)).toNat st sta la ha
      subst hst
      subst hout
      exact ⟨by omega, rfl⟩

/-- C1: whenever alter_pool completes without an error, the returned pool is
the threaded pool state itself (the source mutates and returns the same list
object) and its final length equals its length on entry, for every record
set, settings, junk selector returning the requested number of items, and
random stream: the final junk step adds or removes exactly the difference to
the original size. -/
theorem alter_pool_conserves_size (env : PoolEnv) (settings : WSettings) (id : Nat)
    (records : List (String × ItemPoolRecord)) (pool : List String) (rng : List Nat)
    (st : AlterSt) (out : List String)
    (hjunk : ∀ n p ip, (env.get_junk_item n p ip).length = n)
    (h : alter_pool env settings id records pool rng = (st, .ok out)) :
    out.length = pool.length ∧ out = st.pool := by
  unfold alter_pool at h
  obtain ⟨st1, -, h⟩ := andThenE_ok h
  obtain ⟨st2, -, h⟩ := andThenE_ok h
  obtain ⟨st4, -, h⟩ := andThenE_ok h
  obtain ⟨st5, -, h⟩ := andThenE_ok h
  exact alterJunk_ok env pool.length st5 st out hjunk h

theorem alter_pool_conserves_size_witness :
    (alter_pool cEnvC1 cSettingsC1 0 [("Bottle", ⟨"add", 2⟩)] ["Kokiri Sword"] [0,0,0,0]).2 =
      Except.ok ["Kokiri Sword"] ∧
    (["Kokiri Sword"] : List String).length = (["Kokiri Sword"] : List String).length := by
  have hrun : alter_pool cEnvC1 cSettingsC1 0 [("Bottle", ⟨"add", 2⟩)] ["Kokiri Sword"] [0,0,0,0] =
      ((alter_pool cEnvC1 cSettingsC1 0 [("Bottle", ⟨"add", 2⟩)] ["Kokiri Sword"] [0,0,0,0]).1,
        Except.ok ["Kokiri Sword"]) := by
    rfl
  have h := alter_pool_conserves_size cEnvC1 cSettingsC1 0 [("Bottle", ⟨"add", 2⟩)]
    ["Kokiri Sword"] [0,0,0,0]
    (alter_pool cEnvC1 cSettingsC1 0 [("Bottle", ⟨"add", 2⟩)] ["Kokiri Sword"] [0,0,0,0]).1
    ["Kokiri Sword"]
    (by intro n p ip; simp [cEnvC1])
    hrun
  exact ⟨by rw [hrun], h.1⟩

theorem pool_remove_full_error {α : Type} [DecidableEq α] (toName : α → String)
    (worldOf : α → Int) (is_item : String → Bool) (matcher : String → Bool)
    (item_name : String) (world_id : Option Int) :
    ∀ (n : Nat) (st : RemovalSt α) (err : PErr),
    (pool_remove_full toName worldOf is_item matcher item_name world_id n st).2 = .error err →
    err = if is_item item_name then PErr.noRemainingItems item_name
          else PErr.noItemsMatching item_name := by
  intro n
  induction n with
  | zero =>
    intro st err h
    simp [pool_remove_full] at h
  | succ n ih =>
    intro st err h
    rcases hpull : pull_random_element st.pools
        (removePred toName worldOf matcher world_id false st.base_pool) true st.rng
      with ⟨o, ps, rg⟩
    simp only [pool_remove_full, hpull] at h
    cases o with
    | none =>
      simp only [poolRemoveFullStep] at h
      exact (Except.error.inj h).symm
    | some e =>
      simp only [poolRemoveFullStep] at h
      rcases hr : (pool_remove_full toName worldOf is_item matcher item_name world_id n
          ⟨ps, st.base_pool, rg⟩).2 with e2 | l2
      · rw [hr] at h
        simp only [Except.map] at h
        have he : e2 = err := Except.error.inj h
        exact he ▸ ih ⟨ps, st.base_pool, rg⟩ e2 hr
      · rw [hr] at h
        simp [Except.map] at h

theorem removePred_true_elim {α : Type} (toName : α → String) (worldOf : α → Int)
    (matcher : String → Bool) (world_id : Option Int) (base_pool : List String) (e : α)
    (h : removePred toName worldOf matcher world_id true base_pool e = true) :
    matcher (toName e) = true ∧ base_pool.contains (toName e) = true := by
  have hm : matcher (toName e) = true := by
    cases world_id <;> simp [removePred] at h <;> tauto
  have hmem : toName e ∈ base_pool := by
    cases world_id <;> simp [removePred] at h <;> tauto
  exact ⟨hm, List.elem_eq_true_of_mem hmem⟩

theorem removePred_false_elim {α : Type} (toName : α → String) (worldOf : α → Int)
    (matcher : String → Bool) (world_id : Option Int) (base_pool : List String) (e : α)
    (h : removePred toName worldOf matcher world_id false base_pool e = true) :
    matcher (toName e) = true ∧ base_pool.contains (toName e) = false := by
  have hm : matcher (toName e) = true := by
    cases world_id <;> simp [removePred] at h <;> tauto
  refine ⟨hm, ?_⟩
  rcases hc : base_pool.contains (toName e) with _ | _
  · rfl
  · exfalso
    have hmem : toName e ∈ base_pool := List.mem_of_elem_eq_true hc
    cases world_id <;> simp [removePred, hmem] at h

/-- C5: amended two-tier behaviour of pool_remove_item: (1) every element
pulled in the first tier matches the pattern and lies in the player's base
pool; (2) every element pulled in the fallback tier matches the pattern and
lies outside the base pool; (3) when the first tier finds no candidate at all
the whole call behaves exactly as the fallback tier for the full remaining
count; (4) any exhaustion error of the fallback tier is chosen solely by
is_item(item_name) - known item names give the "no remaining items" error and
patterns the "no items matching" error - regardless of whether the pattern
matched anything. -/
theorem pool_remove_item_spec {α : Type} [DecidableEq α] (toName : α → String)
    (worldOf : α → Int) (is_item : String → Bool) (groups : String → List String)
    (item_name : String) (world_id : Option Int) (n : Nat) (st : RemovalSt α) :
    (∀ e, (pull_random_element st.pools
        (removePred toName worldOf (pattern_matcher1 groups item_name) world_id true
          st.base_pool) true st.rng).1 = some e →
      pattern_matcher1 groups item_name (toName e) = true ∧
      st.base_pool.contains (toName e) = true) ∧
    (∀ e, (pull_random_element st.pools
        (removePred toName worldOf (pattern_matcher1 groups item_name) world_id false
          st.base_pool) true st.rng).1 = some e →
      pattern_matcher1 groups item_name (toName e) = true ∧
      st.base_pool.contains (toName e) = false) ∧
    ((pull_random_element st.pools
        (removePred toName worldOf (pattern_matcher1 groups item_name) world_id true
          st.base_pool) true st.rng).1 = none →
      pool_remove_item toName worldOf is_item groups item_name world_id true (n+1) st =
        pool_remove_item toName worldOf is_item groups item_name world_id false (n+1) st) ∧
    (∀ err,
      (pool_remove_item toName worldOf is_item groups item_name world_id false n st).2 =
        .error err →
      err = if is_item item_name then PErr.noRemainingItems item_name
            else PErr.noItemsMatching item_name) := by
  refine ⟨?_, ?_, ?_, ?_⟩
  · intro e he
    exact removePred_true_elim toName worldOf _ world_id st.base_pool e (pull_some_pred he)
  · intro e he
    exact removePred_false_elim toName worldOf _ world_id st.base_pool e (pull_some_pred he)
  · intro hnone
    have hst := pull_none_state hnone
    simp only [pool_remove_item, if_true, if_false, Bool.false_eq_true, ite_false, ite_true]
    simp only [pool_remove_base, hst, poolRemoveBaseStep]
  · intro err h
    simp only [pool_remove_item, Bool.false_eq_true, ite_false] at h
    exact pool_remove_full_error toName worldOf is_item _ item_name world_id n st err h

/-- C5 counterexample: the exhaustion error does not report whether the
pattern matched: for the known item name "Kokiri Sword" over a pool where
nothing matches it, the error raised is still the "no remaining items
matching" one, while the same pool with an unknown name gives the "no items
matching" error; the message is selected by is_item(item_name) alone. -/
theorem pool_remove_item_counterexample :
    ((pool_remove_item (fun s : String => s) (fun _ => (0 : Int))
        (fun s => s == "Kokiri Sword") (fun _ => []) "Kokiri Sword" none true 1
        ⟨[["Deku Nut"]], ["Deku Nut"], []⟩).2 =
      Except.error (PErr.noRemainingItems "Kokiri Sword")) ∧
    (∀ nm ∈ ["Deku Nut"], pattern_matcher1 (fun _ => []) "Kokiri Sword" nm = false) ∧
    ((pool_remove_item (fun s : String => s) (fun _ => (0 : Int))
        (fun s => s == "Kokiri Sword") (fun _ => []) "Mystery Thing" none true 1
        ⟨[["Deku Nut"]], ["Deku Nut"], []⟩).2 =
      Except.error (PErr.noItemsMatching "Mystery Thing")) := by
  refine ⟨rfl, by decide, rfl⟩

theorem pool_remove_item_spec_witness :
    (pattern_matcher1 (fun _ => ([] : List String)) "Bottle" "Bottle" = true ∧
      List.contains ["Bottle"] "Bottle" = true) ∧
    (pool_remove_item (fun s : String => s) (fun _ => (0 : Int)) (fun s => s == "Bottle")
        (fun _ => []) "Bottle" none true 1 ⟨[[]], [], []⟩ =
      pool_remove_item (fun s : String => s) (fun _ => (0 : Int)) (fun s => s == "Bottle")
        (fun _ => []) "Bottle" none false 1 ⟨[[]], [], []⟩) ∧
    (PErr.noRemainingItems "Bottle" =
      if (("Bottle" : String) == "Bottle") then PErr.noRemainingItems "Bottle"
      else PErr.noItemsMatching "Bottle") := by
  have h1 := (pool_remove_item_spec (fun s : String => s) (fun _ => (0 : Int))
    (fun s => s == "Bottle") (fun _ => []) "Bottle" none 0
    ⟨[["Bottle"]], ["Bottle"], []⟩).1 "Bottle" rfl
  have h2 := (pool_remove_item_spec (fun s : String => s) (fun _ => (0 : Int))
    (fun s => s == "Bottle") (fun _ => []) "Bottle" none 0 ⟨[[]], [], []⟩).2.2.1 rfl
  have h3 := (pool_remove_item_spec (fun s : String => s) (fun _ => (0 : Int))
    (fun s => s == "Bottle") (fun _ => []) "Bottle" none 1 ⟨[[]], [], []⟩).2.2.2
    (PErr.noRemainingItems "Bottle") rfl
  exact ⟨h1, h2, h3⟩

/-- C3: the reachability gate of fill: whenever processing one location record
pushes an item flagged as advancement and the external search then reports the
game cannot be beaten, the record loop stops at once with a FillError naming
the location, the placing world (1-based), the item, and the owning player
(1-based) - no matter what further records were still pending. -/
theorem fill_gate (env : FillEnv) (worlds : List WorldT) (dWorld : WorldT) (id : Nat)
    (dsettings : WSettings) (fillable_locations : List Location)
    (name : String) (record : LocationRecord) (st st' : FillSt)
    (location : Location) (item : Item) (player_id : Int)
    (rest : List (String × LocationRecord))
    (hstep : fill_step env worlds dWorld id dsettings fillable_locations name record st =
      .ok (st', some (location, item, player_id)))
    (hadv : item.advancement = true)
    (hbeat : env.can_beat st'.placements st'.item_pools.flatten = false) :
    fill_loop env worlds dWorld id dsettings fillable_locations ((name, record) :: rest) st =
      .error (.fillError location.name ((id : Int) + 1) item.name (player_id + 1)) := by
  simp only [fill_loop, hstep, hadv, hbeat]
  simp

theorem fill_gate_witness :
    fill_loop cFillEnvC3 [cWorldC3] cWorldC3 0 cSettingsC1 []
        [("ZF Iceberg", cRecC3), ("Other Spot", cRecC3)] cStC3 =
      Except.error (PErr.fillError "ZF Iceberg" 1 "Iron Boots" 1) := by
  have h := fill_gate cFillEnvC3 [cWorldC3] cWorldC3 0 cSettingsC1 [] "ZF Iceberg" cRecC3
    cStC3 cSt4C3 cLocC3 cItemC3 0 [("Other Spot", cRecC3)] rfl rfl rfl
  exact h
